import Mathlib

/-!
# Verification of the ballz-game simulation core

Shallow embedding of `src/script.js` (a turn-based arcade ball game).  The
file contains two variants of the script (separated by a document marker):
the first uses grid-aligned blocks with pickups, the second uses freely
placed floating barrier blocks, `prevX/prevY` tracking on balls, and a
barrier population cap.  Both variants share the same seeded xorshift32 RNG
and the same `spawnRow` planner.

JavaScript numbers are modelled as exact rationals (`ℚ`); 32-bit integer
operations of the RNG are modelled on `Nat` with explicit reduction
`% 2 ^ 32`.  `Math.floor` is `Int.floor`, `Math.round` is
`⌊x + 1/2⌋` (JS rounds half away from zero towards +∞ for nonnegative
arguments, which is the only case arising here).
-/

namespace BallzGame

/-! ## Deterministic RNG (`class RNG`, both variants)

`next()` is
```js
let x = this.state;
x ^= x << 13;
x ^= x >>> 17;
x ^= x << 5;
this.state = x >>> 0;
return this.state / 0xffffffff;
```
All shifts/xors act on the 32-bit word; `>>> 0` is reduction mod `2^32`. -/

/-- One update of the xorshift32 state (the `next()` state transition). -/
def xorshift32 (s : Nat) : Nat :=
  let x1 := (s ^^^ s <<< 13) % 2 ^ 32
  let x2 := x1 ^^^ x1 >>> 17
  (x2 ^^^ x2 <<< 5) % 2 ^ 32

/-- The value of a stored 32-bit state as a JS number: `state / 0xffffffff`. -/
def outOf (s : Nat) : ℚ := (s : ℚ) / 4294967295

/-- The return value of one `next()` call entered with state `s`:
the post-update state divided by `0xffffffff`. -/
def rngOut (s : Nat) : ℚ := outOf (xorshift32 s)

theorem xorshift32_lt (s : Nat) : xorshift32 s < 2 ^ 32 := by
  unfold xorshift32
  exact Nat.mod_lt _ (by norm_num)

theorem outOf_nonneg (s : Nat) : 0 ≤ outOf s := by
  unfold outOf
  positivity

theorem outOf_le_one {s : Nat} (h : s < 2 ^ 32) : outOf s ≤ 1 := by
  unfold outOf
  rw [div_le_one (by norm_num)]
  norm_num
  omega

theorem outOf_lt_one_iff {s : Nat} (h : s < 2 ^ 32) :
    outOf s < 1 ↔ s ≠ 4294967295 := by
  unfold outOf
  rw [div_lt_one (by norm_num)]
  constructor
  · intro hlt heq
    subst heq
    norm_num at hlt
  · intro hne
    have : s < 4294967295 := by omega
    exact_mod_cast this

theorem xorshift32_preimage_top : xorshift32 1584200935 = 4294967295 := by decide

/-- **C1.** For every seed and after any number of calls, `RNG.next()`
returns a value in the half-open interval `[0,1)` (strictly less than 1),
where the return value is the post-update 32-bit state divided by
`0xffffffff`. -/
theorem claim_C1_counterexample :
    rngOut 1584200935 = 1 ∧ ¬ rngOut 1584200935 < 1 := by
  have h : rngOut 1584200935 = 1 := by
    unfold rngOut
    rw [xorshift32_preimage_top]
    unfold outOf
    norm_num
  exact ⟨h, by rw [h]; exact lt_irrefl 1⟩

/-- **C1 (amended).** Every `next()` output lies in the closed interval
`[0,1]`; it is strictly less than 1 exactly when the post-update state is
not `0xffffffff` (the state `0x5e6cfce7 = 1584200935` maps to `0xffffffff`,
so the value 1 is attained). -/
theorem claim_C1_amended (s : Nat) :
    0 ≤ rngOut s ∧ rngOut s ≤ 1 ∧ (rngOut s < 1 ↔ xorshift32 s ≠ 4294967295) := by
  refine ⟨outOf_nonneg _, outOf_le_one (xorshift32_lt s), ?_⟩
  exact outOf_lt_one_iff (xorshift32_lt s)

/-! ## JS numeric helpers -/

/-- `Math.round` for the nonnegative arguments arising here: round half up. -/
def jsRound (q : ℚ) : ℤ := ⌊q + 1/2⌋

/-- `Math.floor(x)` of a Nat-indexed draw, as the Nat used by the code.
The code always applies this to nonnegative values. -/
def floorToNat (q : ℚ) : Nat := (Int.floor q).toNat

theorem floorToNat_outOf_mul (s k : Nat) :
    floorToNat (outOf s * (k : ℚ)) = s * k / 4294967295 := by
  unfold floorToNat outOf
  have h : (s : ℚ) / 4294967295 * (k : ℚ) =
      (((s * k : ℕ) : ℤ) : ℚ) / ((4294967295 : ℕ) : ℚ) := by
    push_cast
    ring
  rw [h, Rat.floor_intCast_div_natCast, ← Int.natCast_div]
  exact Int.toNat_natCast _

theorem jsRound_strength (turn s : Nat) :
    jsRound ((turn : ℚ) * (1/2 + outOf s)) =
      ((turn * 4294967295 + 2 * turn * s + 4294967295) / (2 * 4294967295) : ℕ) := by
  unfold jsRound outOf
  have h : (turn : ℚ) * (1/2 + (s : ℚ) / 4294967295) + 1/2 =
      (((turn * 4294967295 + 2 * turn * s + 4294967295 : ℕ) : ℤ) : ℚ) /
        ((2 * 4294967295 : ℕ) : ℚ) := by
    push_cast
    field_simp
    ring
  rw [h, Rat.floor_intCast_div_natCast, ← Int.natCast_div]

theorem outOf_gt_65_iff (s : Nat) :
    (65/100 : ℚ) < outOf s ↔ 4294967295 * 65 < s * 100 := by
  unfold outOf
  rw [div_lt_div_iff₀ (by norm_num) (by norm_num)]
  constructor
  · intro h
    exact_mod_cast h
  · intro h
    exact_mod_cast h

/-! ## Blocks and the spawn planner (`Game.spawnRow`, both variants)

```js
spawnRow() {
  const minBlocks = Math.min(3, GRID_COLUMNS);
  const maxBlocks = Math.max(3, Math.floor(GRID_COLUMNS * 0.85));
  let blockCount = Math.floor(this.rng.next() * (maxBlocks - minBlocks + 1)) + minBlocks;
  const taken = new Set();
  while (blockCount > 0) {
    const col = Math.floor(this.rng.next() * GRID_COLUMNS);
    if (taken.has(col)) continue;
    taken.add(col);
    blockCount--;
    const strength = Math.max(1, Math.round(this.turn * (0.5 + this.rng.next())));
    this.blocks.push(new Block(col, 0, strength, "block"));
  }
  if (this.rng.next() > 0.65) {
    const freeCols = [...Array(GRID_COLUMNS).keys()].filter((c) => !taken.has(c));
    if (freeCols.length) {
      const spawnCol = randomChoice(freeCols, this.rng);
      this.blocks.push(new Block(spawnCol, 0, 1, "pickup"));
    }
  }
}
```
The unbounded `while` loop is modelled with explicit fuel; "`spawnRow`
terminates" is "`some` result for some fuel". -/

def GRID_COLUMNS : Nat := 7

inductive BlockType where
  | block
  | pickup
deriving DecidableEq, Repr

/-- Grid block (`class Block`); `destroyed` starts `false` in the
constructor.  Position is derived from `col`/`row`, not stored. -/
structure Block where
  col : Nat
  row : Nat
  strength : ℤ
  type : BlockType
  destroyed : Bool
deriving DecidableEq, Repr

/-- The distinct-column retry loop of `spawnRow`.  Each iteration consumes
one unit of fuel; `none` means the fuel ran out before `blockCount`
reached zero. -/
def spawnRowLoop (turn : Nat) : Nat → Nat → List Nat → List Block → Nat →
    Option (List Block × List Nat × Nat)
  | fuel, s, taken, acc, blockCount =>
    if blockCount = 0 then some (acc, taken, s)
    else
      match fuel with
      | 0 => none
      | fuel + 1 =>
        let s1 := xorshift32 s
        let col := floorToNat (outOf s1 * (GRID_COLUMNS : ℚ))
        if col ∈ taken then spawnRowLoop turn fuel s1 taken acc blockCount
        else
          let s2 := xorshift32 s1
          let strength := max 1 (jsRound ((turn : ℚ) * (1/2 + outOf s2)))
          spawnRowLoop turn fuel s2 (col :: taken)
            (acc ++ [⟨col, 0, strength, .block, false⟩]) (blockCount - 1)

/-- `Game.spawnRow`, entered with RNG state `s` and turn number `turn`.
Returns the blocks pushed (standard blocks in loop order, then possibly a
pickup) and the final RNG state.  In the branch where the pickup index
draw would be exactly 1 (`freeCols[freeCols.length]`), JS would push a
block with an undefined column; that branch pushes nothing here and is
unreachable for index draws `< 1`. -/
def spawnRow (fuel s turn : Nat) : Option (List Block × Nat) :=
  let minBlocks : Nat := min 3 GRID_COLUMNS
  let maxBlocks : Nat := max 3 (floorToNat ((GRID_COLUMNS : ℚ) * (85/100)))
  let s1 := xorshift32 s
  let blockCount :=
    floorToNat (outOf s1 * ((maxBlocks : ℚ) - (minBlocks : ℚ) + 1)) + minBlocks
  match spawnRowLoop turn fuel s1 [] [] blockCount with
  | none => none
  | some (blocks, taken, s2) =>
    let s3 := xorshift32 s2
    if (65/100 : ℚ) < outOf s3 then
      let freeCols := (List.range GRID_COLUMNS).filter (fun c => ¬ c ∈ taken)
      if freeCols.length ≠ 0 then
        let s4 := xorshift32 s3
        let idx := floorToNat (outOf s4 * (freeCols.length : ℚ))
        match freeCols[idx]? with
        | some c => some (blocks ++ [⟨c, 0, 1, .pickup, false⟩], s4)
        | none => some (blocks, s4)
      else some (blocks, s3)
    else some (blocks, s3)

/-! ### Executable twin of `spawnRow` over `Nat`

The rational draws of `spawnRow` reduce to integer division; the twin
makes concrete runs kernel-computable.  `spawnRow_eq_spawnRowN` proves the
two agree everywhere. -/

def colDrawN (s : Nat) : Nat := s * GRID_COLUMNS / 4294967295

def strengthDrawN (turn s : Nat) : ℤ :=
  max 1 ((turn * 4294967295 + 2 * turn * s + 4294967295) / (2 * 4294967295) : ℕ)

def spawnRowLoopN (turn : Nat) : Nat → Nat → List Nat → List Block → Nat →
    Option (List Block × List Nat × Nat)
  | fuel, s, taken, acc, blockCount =>
    if blockCount = 0 then some (acc, taken, s)
    else
      match fuel with
      | 0 => none
      | fuel + 1 =>
        let s1 := xorshift32 s
        let col := colDrawN s1
        if col ∈ taken then spawnRowLoopN turn fuel s1 taken acc blockCount
        else
          let s2 := xorshift32 s1
          spawnRowLoopN turn fuel s2 (col :: taken)
            (acc ++ [⟨col, 0, strengthDrawN turn s2, .block, false⟩]) (blockCount - 1)

def spawnRowN (fuel s turn : Nat) : Option (List Block × Nat) :=
  let s1 := xorshift32 s
  let blockCount := s1 * 3 / 4294967295 + 3
  match spawnRowLoopN turn fuel s1 [] [] blockCount with
  | none => none
  | some (blocks, taken, s2) =>
    let s3 := xorshift32 s2
    if 4294967295 * 65 < s3 * 100 then
      let freeCols := (List.range GRID_COLUMNS).filter (fun c => ¬ c ∈ taken)
      if freeCols.length ≠ 0 then
        let s4 := xorshift32 s3
        let idx := s4 * freeCols.length / 4294967295
        match freeCols[idx]? with
        | some c => some (blocks ++ [⟨c, 0, 1, .pickup, false⟩], s4)
        | none => some (blocks, s4)
      else some (blocks, s3)
    else some (blocks, s3)

theorem spawnRowLoop_eq_N (turn fuel s : Nat) (taken : List Nat)
    (acc : List Block) (blockCount : Nat) :
    spawnRowLoop turn fuel s taken acc blockCount =
      spawnRowLoopN turn fuel s taken acc blockCount := by
  induction fuel generalizing s taken acc blockCount with
  | zero =>
    unfold spawnRowLoop spawnRowLoopN
    rfl
  | succ fuel ih =>
    unfold spawnRowLoop spawnRowLoopN
    by_cases h0 : blockCount = 0
    · simp [h0]
    · simp only [h0, if_false]
      have hcol : floorToNat (outOf (xorshift32 s) * (GRID_COLUMNS : ℚ)) =
          colDrawN (xorshift32 s) := floorToNat_outOf_mul _ _
      rw [hcol]
      by_cases hmem : colDrawN (xorshift32 s) ∈ taken
      · simp only [hmem, if_true]
        exact ih _ _ _ _
      · simp only [hmem, if_false]
        have hstr : max 1 (jsRound ((turn : ℚ) * (1/2 + outOf (xorshift32 (xorshift32 s))))) =
            strengthDrawN turn (xorshift32 (xorshift32 s)) := by
          unfold strengthDrawN
          rw [jsRound_strength]
        rw [hstr]
        exact ih _ _ _ _

theorem maxBlocks_eval : max 3 (floorToNat ((GRID_COLUMNS : ℚ) * (85/100))) = 5 := by
  have h : ((GRID_COLUMNS : ℚ) * (85/100)) = ((595 : ℤ) : ℚ) / ((100 : ℕ) : ℚ) := by
    unfold GRID_COLUMNS
    norm_num
  unfold floorToNat
  rw [h, Rat.floor_intCast_div_natCast]
  decide

theorem spawnRow_eq_spawnRowN (fuel s turn : Nat) :
    spawnRow fuel s turn = spawnRowN fuel s turn := by
  unfold spawnRow spawnRowN
  have hmin : min 3 GRID_COLUMNS = 3 := by decide
  have hq : ((5 : ℕ) : ℚ) - ((3 : ℕ) : ℚ) + 1 = ((3 : ℕ) : ℚ) := by norm_num
  simp only [maxBlocks_eval, hmin, hq, floorToNat_outOf_mul, outOf_gt_65_iff,
    spawnRowLoop_eq_N]

/-! ### Properties of the spawn loop -/

theorem spawnRowLoopN_spec (turn : Nat) :
    ∀ (fuel s : Nat) (taken : List Nat) (acc : List Block) (bc : Nat)
      (blocks : List Block) (taken' : List Nat) (s' : Nat),
      spawnRowLoopN turn fuel s taken acc bc = some (blocks, taken', s') →
      (∀ b ∈ acc, b.type = BlockType.block) →
      (acc.map (·.col)).Nodup →
      (∀ b ∈ acc, b.col ∈ taken) →
      (∀ b ∈ blocks, b.type = BlockType.block) ∧
        (blocks.map (·.col)).Nodup ∧ blocks.length = acc.length + bc := by
  intro fuel
  induction fuel with
  | zero =>
    intro s taken acc bc blocks taken' s' h hty hnd hsub
    unfold spawnRowLoopN at h
    by_cases h0 : bc = 0
    · simp only [h0, if_true, Option.some.injEq, Prod.mk.injEq] at h
      obtain ⟨h1, _, _⟩ := h
      subst h1
      exact ⟨hty, hnd, by omega⟩
    · simp [h0] at h
  | succ fuel ih =>
    intro s taken acc bc blocks taken' s' h hty hnd hsub
    unfold spawnRowLoopN at h
    by_cases h0 : bc = 0
    · simp only [h0, if_true, Option.some.injEq, Prod.mk.injEq] at h
      obtain ⟨h1, _, _⟩ := h
      subst h1
      exact ⟨hty, hnd, by omega⟩
    · simp only [h0, if_false] at h
      by_cases hmem : colDrawN (xorshift32 s) ∈ taken
      · simp only [hmem, if_true] at h
        exact ih _ _ _ _ _ _ _ h hty hnd hsub
      · simp only [hmem, if_false] at h
        have hres := ih _ _ _ _ _ _ _ h ?_ ?_ ?_
        · refine ⟨hres.1, hres.2.1, ?_⟩
          have := hres.2.2
          simp only [List.length_append, List.length_cons, List.length_nil] at this
          omega
        · intro b hb
          rcases List.mem_append.mp hb with hb | hb
          · exact hty b hb
          · simp only [List.mem_singleton] at hb
            subst hb
            rfl
        · rw [List.map_append]
          rw [List.nodup_append]
          refine ⟨hnd, List.nodup_singleton _, ?_⟩
          intro c hc hc'
          simp only [List.map_cons, List.map_nil, List.mem_singleton] at hc'
          subst hc'
          rcases List.mem_map.mp hc with ⟨b, hb, hbc⟩
          exact hmem (hbc ▸ hsub b hb)
        · intro b hb
          rcases List.mem_append.mp hb with hb | hb
          · exact List.mem_cons_of_mem _ (hsub b hb)
          · simp only [List.mem_singleton] at hb
            subst hb
            exact List.mem_cons_self _ _

theorem blockCountN_bounds (s1 : Nat) (h : s1 < 2 ^ 32) :
    3 ≤ s1 * 3 / 4294967295 + 3 ∧ s1 * 3 / 4294967295 + 3 ≤ 6 ∧
      (s1 ≠ 4294967295 → s1 * 3 / 4294967295 + 3 ≤ 5) := by
  refine ⟨by omega, ?_, ?_⟩
  · have : s1 * 3 ≤ 4294967295 * 3 := by omega
    have := Nat.div_le_div_right (c := 4294967295) this
    omega
  · intro hne
    have hlt : s1 * 3 < 4294967295 * 3 := by omega
    have : s1 * 3 / 4294967295 < 3 := by
      apply Nat.div_lt_of_lt_mul
      omega
    omega

/-- **C2 (counterexample).**  At RNG state `1584200935` (whose first draw
returns exactly 1, because the updated state is `0xffffffff`), `spawnRow`
adds **six** standard blocks, exceeding the claimed upper bound
`max(3, floor(GRID_COLUMNS*0.85)) = 5`. -/
theorem claim_C2_counterexample :
    (spawnRow 30 1584200935 1).map
        (fun r => (r.1.filter (fun b => b.type == BlockType.block)).length) = some 6 ∧
      min 3 GRID_COLUMNS = 3 ∧
      max 3 (floorToNat ((GRID_COLUMNS : ℚ) * (85/100))) = 5 := by
  refine ⟨?_, by decide, maxBlocks_eval⟩
  rw [spawnRow_eq_spawnRowN]
  decide

/-- **C2 (amended).**  For every RNG state, the standard blocks added by a
terminating invocation of `spawnRow` occupy pairwise-distinct columns, and
their count lies between `min(3, GRID_COLUMNS) = 3` and
`max(3, floor(GRID_COLUMNS*0.85)) = 5` inclusive **whenever the count draw
returns a value < 1** (i.e. the post-draw RNG state is not `0xffffffff`);
in the exceptional state the count is 6. -/
theorem claim_C2_amended (fuel s turn : Nat) (blocks : List Block) (s' : Nat)
    (h : spawnRow fuel s turn = some (blocks, s')) :
    ((blocks.filter (fun b => b.type == BlockType.block)).map (·.col)).Nodup ∧
      min 3 GRID_COLUMNS ≤ (blocks.filter (fun b => b.type == BlockType.block)).length ∧
      (blocks.filter (fun b => b.type == BlockType.block)).length ≤ 6 ∧
      (xorshift32 s ≠ 4294967295 →
        (blocks.filter (fun b => b.type == BlockType.block)).length ≤
          max 3 (floorToNat ((GRID_COLUMNS : ℚ) * (85/100)))) := by
  rw [spawnRow_eq_spawnRowN] at h
  simp only [spawnRowN] at h
  cases hloop : spawnRowLoopN turn fuel (xorshift32 s) [] []
      (xorshift32 s * 3 / 4294967295 + 3) with
  | none => rw [hloop] at h; exact absurd h (by simp)
  | some r =>
    obtain ⟨stdBlocks, taken, s2⟩ := r
    rw [hloop] at h
    have hspec := spawnRowLoopN_spec turn fuel (xorshift32 s) [] []
      (xorshift32 s * 3 / 4294967295 + 3) stdBlocks taken s2 hloop
      (by intro b hb; cases hb) List.nodup_nil (by intro b hb; cases hb)
    obtain ⟨hty, hnd, hlen⟩ := hspec
    simp only [List.length_nil, Nat.zero_add] at hlen
    have hfilter : ∀ (extra : List Block), (∀ b ∈ extra, b.type = BlockType.pickup) →
        (stdBlocks ++ extra).filter (fun b => b.type == BlockType.block) = stdBlocks := by
      intro extra hextra
      rw [List.filter_append]
      have h1 : stdBlocks.filter (fun b => b.type == BlockType.block) = stdBlocks := by
        apply List.filter_eq_self.mpr
        intro b hb
        simp only [hty b hb]
        decide
      have h2 : extra.filter (fun b => b.type == BlockType.block) = [] := by
        apply List.filter_eq_nil_iff.mpr
        intro b hb
        simp only [hextra b hb]
        decide
      rw [h1, h2, List.append_nil]
    have hfilter0 : stdBlocks.filter (fun b => b.type == BlockType.block) = stdBlocks := by
      have := hfilter [] (by intro b hb; cases hb)
      rwa [List.append_nil] at this
    have hbounds := blockCountN_bounds (xorshift32 s) (xorshift32_lt s)
    have hblocks : blocks.filter (fun b => b.type == BlockType.block) = stdBlocks := by
      simp only at h
      by_cases hgt : 4294967295 * 65 < xorshift32 s2 * 100
      · simp only [hgt, if_true] at h
        by_cases hfc : ((List.range GRID_COLUMNS).filter (fun c => ¬ c ∈ taken)).length = 0
        · simp only [hfc] at h
          simp only [ne_eq, not_true_eq_false, if_false, Option.some.injEq,
            Prod.mk.injEq] at h
          obtain ⟨h1, _⟩ := h
          subst h1
          exact hfilter0
        · simp only [ne_eq, hfc, not_false_eq_true, if_true] at h
          cases hget : ((List.range GRID_COLUMNS).filter (fun c => ¬ c ∈ taken))[xorshift32 (xorshift32 s2) * ((List.range GRID_COLUMNS).filter (fun c => ¬ c ∈ taken)).length / 4294967295]? with
          | none =>
            rw [hget] at h
            simp only [Option.some.injEq, Prod.mk.injEq] at h
            obtain ⟨h1, _⟩ := h
            subst h1
            exact hfilter0
          | some c =>
            rw [hget] at h
            simp only [Option.some.injEq, Prod.mk.injEq] at h
            obtain ⟨h1, _⟩ := h
            subst h1
            exact hfilter _ (by
              intro b hb
              simp only [List.mem_singleton] at hb
              subst hb
              rfl)
      · simp only [hgt, if_false, Option.some.injEq, Prod.mk.injEq] at h
        obtain ⟨h1, _⟩ := h
        subst h1
        exact hfilter0
    rw [hblocks, hlen]
    refine ⟨hnd, ?_, ?_, ?_⟩
    · have : min 3 GRID_COLUMNS = 3 := by decide
      omega
    · omega
    · intro hne
      rw [maxBlocks_eval]
      exact hbounds.2.2 hne

/-- **C2 (witness).**  A concrete terminating run (seed 1): three standard
blocks in distinct columns, within the claimed bounds. -/
theorem claim_C2_witness :
    ∃ blocks s', spawnRow 40 1 1 = some (blocks, s') ∧
      ((blocks.filter (fun b => b.type == BlockType.block)).map (·.col)).Nodup ∧
      min 3 GRID_COLUMNS ≤ (blocks.filter (fun b => b.type == BlockType.block)).length ∧
      (blocks.filter (fun b => b.type == BlockType.block)).length ≤ 6 := by
  have h : spawnRow 40 1 1 =
      some ([⟨0, 0, 1, .block, false⟩, ⟨3, 0, 1, .block, false⟩,
        ⟨1, 0, 1, .block, false⟩], 2005365029) := by
    rw [spawnRow_eq_spawnRowN]
    decide
  have hres := claim_C2_amended 40 1 1 _ _ h
  exact ⟨_, _, h, hres.1, hres.2.1, hres.2.2.1⟩

/-! ### Non-termination at RNG state zero -/

theorem xorshift32_zero : xorshift32 0 = 0 := by decide

theorem spawnRowLoopN_zero_stuck (turn : Nat) :
    ∀ (fuel : Nat) (taken : List Nat) (acc : List Block) (bc : Nat),
      bc ≠ 0 → 0 ∈ taken → spawnRowLoopN turn fuel 0 taken acc bc = none := by
  intro fuel
  induction fuel with
  | zero =>
    intro taken acc bc hbc _
    unfold spawnRowLoopN
    simp [hbc]
  | succ fuel ih =>
    intro taken acc bc hbc hmem
    unfold spawnRowLoopN
    simp only [hbc, if_false]
    rw [xorshift32_zero]
    have hcol : colDrawN 0 = 0 := by decide
    rw [hcol]
    simp only [hmem, if_true]
    exact ih taken acc bc hbc hmem

theorem spawnRow_zero_none (fuel turn : Nat) : spawnRow fuel 0 turn = none := by
  rw [spawnRow_eq_spawnRowN]
  unfold spawnRowN
  rw [xorshift32_zero]
  simp only [Nat.zero_mul, Nat.zero_div, Nat.zero_add]
  cases fuel with
  | zero =>
    unfold spawnRowLoopN
    simp
  | succ fuel =>
    unfold spawnRowLoopN
    simp only [show (3 : Nat) ≠ 0 by decide, if_false]
    rw [xorshift32_zero]
    have hcol : colDrawN 0 = 0 := by decide
    rw [hcol]
    simp only [List.not_mem_nil, if_false]
    rw [xorshift32_zero]
    rw [spawnRowLoopN_zero_stuck turn fuel _ _ _ (by decide) (List.mem_cons_self _ _)]

/-- **C9 (counterexample).**  At RNG state 0 the generator is stuck at 0
(`xorshift32 0 = 0`), every column draw yields column 0, and the
distinct-column retry loop of `spawnRow` never terminates: no amount of
fuel produces a result. -/
theorem claim_C9_counterexample : ¬ ∃ fuel, (spawnRow fuel 0 1).isSome = true := by
  rintro ⟨fuel, hf⟩
  rw [spawnRow_zero_none] at hf
  cases hf

/-! ## Termination of `spawnRow` for nonzero states (C9, amended)

`xorshift32` is linear over F2 on 32-bit words.  Representing it by its
matrix of columns (`M0`), kernel computation shows the matrix has order
exactly `2^32 - 1 = 3 * 5 * 17 * 257 * 65537`: its `(2^32-1)`-th power is
the identity, and for each prime factor `p` the matrix
`M^((2^32-1)/p) + I` is invertible (an explicit inverse is checked), so no
nonzero state has a shorter period.  Hence the orbit of any nonzero state
visits every nonzero 32-bit state, in particular a state drawing any
desired free column, and the distinct-column retry loop terminates. -/

theorem shiftLeft_xor_dist (a b k : Nat) : (a ^^^ b) <<< k = a <<< k ^^^ b <<< k := by
  apply Nat.eq_of_testBit_eq
  intro i
  simp [Nat.testBit_shiftLeft, Nat.testBit_xor]
  by_cases h : k ≤ i <;> simp [h]

theorem shiftRight_xor_dist (a b k : Nat) : (a ^^^ b) >>> k = a >>> k ^^^ b >>> k := by
  apply Nat.eq_of_testBit_eq
  intro i
  simp [Nat.testBit_shiftRight, Nat.testBit_xor]

theorem mod_two_pow_xor (a b n : Nat) : (a ^^^ b) % 2 ^ n = a % 2 ^ n ^^^ b % 2 ^ n := by
  apply Nat.eq_of_testBit_eq
  intro i
  simp [Nat.testBit_mod_two_pow, Nat.testBit_xor]
  by_cases h : i < n <;> simp [h]

theorem xor_mix (p q r s : Nat) : (p ^^^ q) ^^^ (r ^^^ s) = (p ^^^ r) ^^^ (q ^^^ s) := by
  apply Nat.eq_of_testBit_eq
  intro i
  simp only [Nat.testBit_xor]
  generalize p.testBit i = x
  generalize q.testBit i = y
  generalize r.testBit i = z
  generalize s.testBit i = w
  revert x y z w
  decide

theorem two_mul_xor (a b : Nat) : 2 * (a ^^^ b) = 2 * a ^^^ 2 * b := by
  have h := shiftLeft_xor_dist a b 1
  simpa [Nat.shiftLeft_eq, Nat.mul_comm] using h

theorem xor_one_of_even (k : Nat) : 2 * k ^^^ 1 = 2 * k + 1 := by
  apply Nat.eq_of_testBit_eq
  intro i
  cases i with
  | zero =>
    simp [Nat.testBit_xor, Nat.testBit_zero]
  | succ i =>
    rw [Nat.testBit_xor]
    have h1 : Nat.testBit 1 (i + 1) = false := by
      rw [Nat.testBit_succ]
      simp
    rw [h1, Bool.xor_false, Nat.testBit_succ, Nat.testBit_succ]
    congr 1
    omega

theorem mod_xor_div (v : Nat) : v % 2 ^^^ 2 * (v / 2) = v := by
  rcases Nat.mod_two_eq_zero_or_one v with hm | hm
  · rw [hm, Nat.zero_xor]
    omega
  · rw [hm, Nat.xor_comm, xor_one_of_even]
    omega

def applyM : List Nat → Nat → Nat
  | [], _ => 0
  | c :: cs, v => (if v % 2 = 1 then c else 0) ^^^ applyM cs (v / 2)

theorem applyM_zero (cs : List Nat) : applyM cs 0 = 0 := by
  induction cs with
  | nil => rfl
  | cons c cs ih => simp [applyM, ih]

theorem applyM_spec :
    ∀ (cs : List Nat) (F : Nat → Nat),
      (∀ a b, a < 2 ^ cs.length → b < 2 ^ cs.length → F (a ^^^ b) = F a ^^^ F b) →
      F 0 = 0 →
      (∀ i, i < cs.length → cs.getD i 0 = F (2 ^ i)) →
      ∀ v, v < 2 ^ cs.length → applyM cs v = F v := by
  intro cs
  induction cs with
  | nil =>
    intro F _ h0 _ v hv
    have hv0 : v = 0 := by simpa using hv
    subst hv0
    simpa [applyM] using h0.symm
  | cons c cs ih =>
    intro F hadd h0 hb v hv
    have hlen : (2:Nat) ^ (c :: cs).length = 2 ^ cs.length * 2 := by
      rw [List.length_cons, pow_succ]
    have hvdiv : v / 2 < 2 ^ cs.length := by
      rw [hlen] at hv
      omega
    have hGadd : ∀ a b, a < 2 ^ cs.length → b < 2 ^ cs.length →
        F (2 * (a ^^^ b)) = F (2 * a) ^^^ F (2 * b) := by
      intro a b ha hb2
      rw [two_mul_xor]
      exact hadd _ _ (by rw [hlen]; omega) (by rw [hlen]; omega)
    have hG0 : F (2 * 0) = 0 := by simpa using h0
    have hGb : ∀ i, i < cs.length → cs.getD i 0 = F (2 * 2 ^ i) := by
      intro i hi
      have h2 : (2 : Nat) * 2 ^ i = 2 ^ (i + 1) := by
        rw [pow_succ]
        ring
      rw [h2]
      have := hb (i + 1) (by simp [List.length_cons]; omega)
      simpa [List.getD_cons_succ] using this
    have hrec := ih (fun w => F (2 * w)) hGadd hG0 hGb (v / 2) hvdiv
    unfold applyM
    rw [hrec]
    rcases Nat.mod_two_eq_zero_or_one v with hm | hm
    · rw [hm]
      simp only [show ¬(0 = 1) by decide, if_false, Nat.zero_xor]
      congr 1
      omega
    · rw [hm]
      simp only [if_true]
      have hc : c = F 1 := by
        have := hb 0 (by simp)
        simpa using this
      rw [hc, ← hadd 1 (2 * (v / 2)) (by rw [hlen]; have := Nat.one_le_two_pow (n := cs.length); omega) (by rw [hlen]; omega)]
      congr 1
      have := mod_xor_div v
      rw [hm] at this
      exact this

theorem xor_left_comm (a b c : Nat) : a ^^^ (b ^^^ c) = b ^^^ (a ^^^ c) := by
  rw [← Nat.xor_assoc, Nat.xor_comm a b, Nat.xor_assoc]

theorem applyM_add (cs : List Nat) : ∀ x y, applyM cs (x ^^^ y) = applyM cs x ^^^ applyM cs y := by
  induction cs with
  | nil => intro x y; simp [applyM]
  | cons c cs ih =>
    intro x y
    unfold applyM
    have hmod : (x ^^^ y) % 2 = x % 2 ^^^ y % 2 := by
      have := mod_two_pow_xor x y 1
      simpa using this
    have hdiv : (x ^^^ y) / 2 = x / 2 ^^^ y / 2 := by
      have := shiftRight_xor_dist x y 1
      simpa [Nat.shiftRight_succ, Nat.shiftRight_zero] using this
    rw [hmod, hdiv, ih]
    rcases Nat.mod_two_eq_zero_or_one x with hx | hx <;>
      rcases Nat.mod_two_eq_zero_or_one y with hy | hy
    · simp [hx, hy]
    · simp [hx, hy]
      rw [xor_left_comm]
    · simp [hx, hy]
      rw [Nat.xor_assoc]
    · simp [hx, hy]
      rw [xor_mix]
      simp

theorem applyM_lt (cs : List Nat) (hcs : ∀ c ∈ cs, c < 2 ^ 32) :
    ∀ v, applyM cs v < 2 ^ 32 := by
  induction cs with
  | nil => intro v; simp [applyM]
  | cons c cs ih =>
    intro v
    unfold applyM
    apply Nat.xor_lt_two_pow
    · by_cases h : v % 2 = 1
      · simpa [h] using hcs c (by simp)
      · simp [h]
    · exact ih (fun x hx => hcs x (by simp [hx])) _

theorem applyM_pow (cs : List Nat) : ∀ i, i < cs.length → applyM cs (2 ^ i) = cs.getD i 0 := by
  induction cs with
  | nil => intro i hi; simp at hi
  | cons c cs ih =>
    intro i hi
    cases i with
    | zero =>
      unfold applyM
      simp [applyM_zero]
    | succ i =>
      unfold applyM
      have h1 : (2 : Nat) ^ (i + 1) % 2 = 0 := by
        rw [pow_succ]
        omega
      have h2 : (2 : Nat) ^ (i + 1) / 2 = 2 ^ i := by
        rw [pow_succ]
        omega
      rw [h1, h2]
      simp only [show ¬((0:Nat) = 1) by decide, if_false, Nat.zero_xor]
      rw [ih i (by simpa using hi)]
      simp [List.getD_cons_succ]

def stepA (s : Nat) : Nat := (s ^^^ s <<< 13) % 2 ^ 32
def stepB (x : Nat) : Nat := x ^^^ x >>> 17
def stepC (x : Nat) : Nat := (x ^^^ x <<< 5) % 2 ^ 32

theorem xorshift32_eq_steps (s : Nat) : xorshift32 s = stepC (stepB (stepA s)) := rfl

theorem stepA_add (x y : Nat) : stepA (x ^^^ y) = stepA x ^^^ stepA y := by
  unfold stepA
  rw [shiftLeft_xor_dist, xor_mix, mod_two_pow_xor]

theorem stepB_add (x y : Nat) : stepB (x ^^^ y) = stepB x ^^^ stepB y := by
  unfold stepB
  rw [shiftRight_xor_dist, xor_mix]

theorem stepC_add (x y : Nat) : stepC (x ^^^ y) = stepC x ^^^ stepC y := by
  unfold stepC
  rw [shiftLeft_xor_dist, xor_mix, mod_two_pow_xor]

theorem xorshift32_add (x y : Nat) :
    xorshift32 (x ^^^ y) = xorshift32 x ^^^ xorshift32 y := by
  rw [xorshift32_eq_steps, xorshift32_eq_steps, xorshift32_eq_steps,
    stepA_add, stepB_add, stepC_add]

def M0 : List Nat := (List.range 32).map (fun i => xorshift32 (2 ^ i))
def idM : List Nat := (List.range 32).map (fun i => 2 ^ i)
def compM (a b : List Nat) : List Nat := b.map (applyM a)
def addM (a b : List Nat) : List Nat := List.zipWith (fun x y => x ^^^ y) a b
def powAux : Nat → List Nat → Nat → List Nat
  | 0, _, _ => idM
  | fuel + 1, base, k =>
    if k = 0 then idM
    else if k % 2 = 1 then compM base (powAux fuel (compM base base) (k / 2))
    else powAux fuel (compM base base) (k / 2)
def powM (m : List Nat) (k : Nat) : List Nat := powAux 64 m k

theorem idM_length : idM.length = 32 := by decide

theorem applyM_idM (v : Nat) (hv : v < 2 ^ 32) : applyM idM v = v := by
  have h := applyM_spec idM id (fun a b _ _ => rfl) rfl
    (fun i hi => by rw [idM_length] at hi; interval_cases i <;> rfl) v
  rw [idM_length] at h
  exact h hv

theorem compM_length (a b : List Nat) : (compM a b).length = b.length := by
  simp [compM]

theorem compM_apply (a b : List Nat) (v : Nat) (hv : v < 2 ^ b.length) :
    applyM (compM a b) v = applyM a (applyM b v) := by
  have hlen : (compM a b).length = b.length := compM_length a b
  have h := applyM_spec (compM a b) (fun w => applyM a (applyM b w))
    (fun x y _ _ => by
      show applyM a (applyM b (x ^^^ y)) = applyM a (applyM b x) ^^^ applyM a (applyM b y)
      rw [applyM_add b, applyM_add a])
    (by
      show applyM a (applyM b 0) = 0
      rw [applyM_zero, applyM_zero])
    (fun i hi => by
      rw [hlen] at hi
      show (compM a b).getD i 0 = applyM a (applyM b (2 ^ i))
      rw [applyM_pow b i hi]
      unfold compM
      rw [List.getD_eq_getElem _ _ (by simpa using hi), List.getElem_map,
        List.getD_eq_getElem _ _ hi])
    v
  rw [hlen] at h
  exact h hv

theorem applyM_addM : ∀ (a b : List Nat), a.length = b.length →
    ∀ v, applyM (addM a b) v = applyM a v ^^^ applyM b v := by
  intro a
  induction a with
  | nil =>
    intro b hb v
    have : b = [] := by simpa using hb.symm
    subst this
    simp [addM, applyM]
  | cons x xs ih =>
    intro b hb v
    cases b with
    | nil => simp at hb
    | cons y ys =>
      have hlen : xs.length = ys.length := by simpa using hb
      show applyM ((x ^^^ y) :: addM xs ys) v = _
      unfold applyM
      rw [ih ys hlen]
      rcases Nat.mod_two_eq_zero_or_one v with hm | hm
      · simp [hm]
      · simp only [hm, if_true]
        rw [xor_mix]

theorem idM_bounds : ∀ c ∈ idM, c < 2 ^ 32 := by decide

theorem iterate_two_mul (f : Nat → Nat) : ∀ (q v : Nat),
    (fun w => f (f w))^[q] v = f^[2 * q] v := by
  intro q
  induction q with
  | zero => intro v; rfl
  | succ q ih =>
    intro v
    rw [Function.iterate_succ_apply, ih (f (f v)),
      show 2 * (q + 1) = 2 * q + 2 from by ring, Function.iterate_add_apply]
    rfl

theorem powAux_succ (fuel : Nat) (base : List Nat) (k : Nat) :
    powAux (fuel + 1) base k =
      if k = 0 then idM
      else if k % 2 = 1 then compM base (powAux fuel (compM base base) (k / 2))
      else powAux fuel (compM base base) (k / 2) := rfl

theorem powAux_apply : ∀ (fuel : Nat) (m : List Nat) (f : Nat → Nat) (k : Nat),
    k < 2 ^ fuel →
    m.length = 32 →
    (∀ c ∈ m, c < 2 ^ 32) →
    (∀ v, v < 2 ^ 32 → applyM m v = f v) →
    (powAux fuel m k).length = 32 ∧ (∀ c ∈ powAux fuel m k, c < 2 ^ 32) ∧
      ∀ v, v < 2 ^ 32 → applyM (powAux fuel m k) v = f^[k] v := by
  intro fuel
  induction fuel with
  | zero =>
    intro m f k hk _ _ _
    have hk0 : k = 0 := by omega
    subst hk0
    exact ⟨idM_length, idM_bounds, fun v hv => applyM_idM v hv⟩
  | succ fuel ih =>
    intro m f k hk hmlen hmb hmf
    by_cases hk0 : k = 0
    · subst hk0
      rw [powAux_succ, if_pos rfl]
      exact ⟨idM_length, idM_bounds, fun v hv => applyM_idM v hv⟩
    · have hk2 : k / 2 < 2 ^ fuel := by
        have : (2:Nat) ^ (fuel + 1) = 2 * 2 ^ fuel := by ring
        omega
      have hclen : (compM m m).length = 32 := by rw [compM_length, hmlen]
      have hcb : ∀ c ∈ compM m m, c < 2 ^ 32 := by
        intro c hc
        rcases List.mem_map.mp hc with ⟨x, _, hx⟩
        rw [← hx]
        exact applyM_lt m hmb x
      have hcf : ∀ v, v < 2 ^ 32 → applyM (compM m m) v = f (f v) := by
        intro v hv
        rw [compM_apply m m v (by rw [hmlen]; exact hv)]
        have hW : applyM m v < 2 ^ 32 := applyM_lt m hmb v
        rw [hmf _ hW, hmf _ hv]
      obtain ⟨hhlen, hhb, hhf⟩ := ih (compM m m) (fun w => f (f w)) (k / 2) hk2 hclen hcb hcf
      by_cases hodd : k % 2 = 1
      · have hshape : powAux (fuel + 1) m k = compM m (powAux fuel (compM m m) (k / 2)) := by
          rw [powAux_succ, if_neg hk0, if_pos hodd]
        rw [hshape]
        refine ⟨by rw [compM_length, hhlen], ?_, ?_⟩
        · intro c hc
          rcases List.mem_map.mp hc with ⟨x, _, hx⟩
          rw [← hx]
          exact applyM_lt m hmb x
        · intro v hv
          rw [compM_apply m _ v (by rw [hhlen]; exact hv)]
          have hW : applyM (powAux fuel (compM m m) (k / 2)) v < 2 ^ 32 := applyM_lt _ hhb v
          rw [hmf _ hW, hhf v hv, iterate_two_mul, ← Function.iterate_succ_apply' f,
            show (2 * (k / 2)).succ = k from by omega]
      · have hshape : powAux (fuel + 1) m k = powAux fuel (compM m m) (k / 2) := by
          rw [powAux_succ, if_neg hk0, if_neg hodd]
        rw [hshape]
        refine ⟨hhlen, hhb, ?_⟩
        intro v hv
        rw [hhf v hv, iterate_two_mul, show 2 * (k / 2) = k from by omega]

theorem M0_length : M0.length = 32 := by decide

theorem M0_bounds : ∀ c ∈ M0, c < 2 ^ 32 := by decide

theorem M0_repr : ∀ v, v < 2 ^ 32 → applyM M0 v = xorshift32 v := by
  have h := applyM_spec M0 xorshift32
    (fun a b _ _ => xorshift32_add a b)
    (by decide)
    (fun i hi => by
      rw [M0_length] at hi
      have : ∀ j, j < 32 → M0.getD j 0 = xorshift32 (2 ^ j) := by decide
      exact this i hi)
  rw [M0_length] at h
  exact h

theorem powM_repr (k : Nat) (hk : k < 2 ^ 64) :
    (powM M0 k).length = 32 ∧ (∀ c ∈ powM M0 k, c < 2 ^ 32) ∧
      ∀ v, v < 2 ^ 32 → applyM (powM M0 k) v = xorshift32^[k] v :=
  powAux_apply 64 M0 xorshift32 k hk M0_length M0_bounds M0_repr

theorem fixed_of_powM_eq_idM (k : Nat) (hk : k < 2 ^ 64) (h : powM M0 k = idM) :
    ∀ v, v < 2 ^ 32 → xorshift32^[k] v = v := by
  intro v hv
  obtain ⟨-, -, happ⟩ := powM_repr k hk
  rw [← happ v hv, h, applyM_idM v hv]

theorem addM_length (a b : List Nat) : (addM a b).length = min a.length b.length := by
  simp [addM]

theorem zero_of_period (K : Nat) (Pinv : List Nat) (hK : K < 2 ^ 64)
    (hinv : compM Pinv (addM (powM M0 K) idM) = idM)
    (s : Nat) (hs : s < 2 ^ 32) (hper : xorshift32^[K] s = s) : s = 0 := by
  obtain ⟨hAlen, hAb, hAf⟩ := powM_repr K hK
  have hAs : applyM (powM M0 K) s = s := by rw [hAf s hs, hper]
  have hsumlen : (addM (powM M0 K) idM).length = 32 := by
    rw [addM_length, hAlen, idM_length]
    rfl
  have hzero : applyM (addM (powM M0 K) idM) s = 0 := by
    rw [applyM_addM _ _ (by rw [hAlen, idM_length]) s, hAs, applyM_idM s hs,
      Nat.xor_self]
  have := compM_apply Pinv (addM (powM M0 K) idM) s (by rw [hsumlen]; exact hs)
  rw [hinv, applyM_idM s hs, hzero, applyM_zero] at this
  exact this

theorem proper_divisor_route (d : Nat) (hd : d ∣ 4294967295) (hne : d ≠ 4294967295) :
    d ∣ 1431655765 ∨ d ∣ 858993459 ∨ d ∣ 252645135 ∨ d ∣ 16711935 ∨ d ∣ 65535 := by
  have route : ∀ p q : Nat, p.Prime → ¬ p ∣ d → q * p = 4294967295 → d ∣ q := by
    intro p q hp hnd hqp
    have hcop : Nat.Coprime d p :=
      Nat.Coprime.symm ((Nat.Prime.coprime_iff_not_dvd hp).mpr hnd)
    exact hcop.dvd_of_dvd_mul_right (by rw [hqp]; exact hd)
  by_cases h3 : (3:Nat) ∣ d
  · by_cases h5 : (5:Nat) ∣ d
    · by_cases h17 : (17:Nat) ∣ d
      · by_cases h257 : (257:Nat) ∣ d
        · by_cases h65537 : (65537:Nat) ∣ d
          · exfalso
            have h15 : 3 * 5 ∣ d :=
              Nat.Coprime.mul_dvd_of_dvd_of_dvd (by decide) h3 h5
            have h255 : 3 * 5 * 17 ∣ d :=
              Nat.Coprime.mul_dvd_of_dvd_of_dvd (by decide) h15 h17
            have h65535 : 3 * 5 * 17 * 257 ∣ d :=
              Nat.Coprime.mul_dvd_of_dvd_of_dvd (by decide) h255 h257
            have hP : 3 * 5 * 17 * 257 * 65537 ∣ d :=
              Nat.Coprime.mul_dvd_of_dvd_of_dvd (by decide) h65535 h65537
            have hP2 : (4294967295 : Nat) ∣ d := by norm_num at hP; exact hP
            exact hne (Nat.dvd_antisymm hd hP2)
          · exact Or.inr (Or.inr (Or.inr (Or.inr
              (route 65537 65535 (by norm_num) h65537 (by norm_num)))))
        · exact Or.inr (Or.inr (Or.inr (Or.inl
            (route 257 16711935 (by norm_num) h257 (by norm_num)))))
      · exact Or.inr (Or.inr (Or.inl
          (route 17 252645135 (by norm_num) h17 (by norm_num))))
    · exact Or.inr (Or.inl (route 5 858993459 (by norm_num) h5 (by norm_num)))
  · exact Or.inl (route 3 1431655765 (by norm_num) h3 (by norm_num))

theorem iterate_period_mul (f : Nat → Nat) (s d : Nat) (hper : f^[d] s = s) :
    ∀ q, f^[d * q] s = s := by
  intro q
  induction q with
  | zero => rfl
  | succ q ih =>
    rw [show d * (q + 1) = d * q + d from by ring, Function.iterate_add_apply,
      hper, ih]

theorem period_dvd_of_min (f : Nat → Nat) (s : Nat)
    (hex : ∃ n, 0 < n ∧ f^[n] s = s) :
    ∀ m, f^[m] s = s → Nat.find hex ∣ m := by
  intro m hm
  obtain ⟨hpos, hper⟩ := Nat.find_spec hex
  have hsplit : f^[m % Nat.find hex] s = s := by
    have h1 : f^[m % Nat.find hex + Nat.find hex * (m / Nat.find hex)] s = s := by
      rw [Nat.mod_add_div m (Nat.find hex)]
      exact hm
    rw [Function.iterate_add_apply,
      iterate_period_mul f s (Nat.find hex) hper (m / Nat.find hex)] at h1
    exact h1
  by_cases hz : m % Nat.find hex = 0
  · exact Nat.dvd_of_mod_eq_zero hz
  · exact absurd ⟨Nat.pos_of_ne_zero hz, hsplit⟩
      (Nat.find_min hex (Nat.mod_lt _ hpos))

theorem iterate_xs_lt (k : Nat) : ∀ v, v < 2 ^ 32 → xorshift32^[k] v < 2 ^ 32 := by
  induction k with
  | zero => intro v hv; exact hv
  | succ k ih =>
    intro v hv
    rw [Function.iterate_succ_apply]
    exact ih _ (xorshift32_lt v)

theorem no_short_period_param
    (hfixP : ∀ v, v < 2 ^ 32 → xorshift32^[4294967295] v = v)
    (hzero : ∀ K ∈ [1431655765, 858993459, 252645135, 16711935, 65535],
      ∀ u, u < 2 ^ 32 → xorshift32^[K] u = u → u = 0)
    (s d : Nat) (hs : s < 2 ^ 32) (hs0 : s ≠ 0) (hd0 : 0 < d)
    (hdP : d < 4294967295) (hper : xorshift32^[d] s = s) : False := by
  have hex : ∃ n, 0 < n ∧ xorshift32^[n] s = s := ⟨d, hd0, hper⟩
  have hdvdP : Nat.find hex ∣ 4294967295 :=
    period_dvd_of_min _ s hex _ (hfixP s hs)
  have hdvdd : Nat.find hex ∣ d := period_dvd_of_min _ s hex d hper
  have hne : Nat.find hex ≠ 4294967295 := by
    intro h
    have := Nat.le_of_dvd hd0 hdvdd
    omega
  have finish : ∀ K, Nat.find hex ∣ K → xorshift32^[K] s = s := by
    intro K hK
    obtain ⟨q, hq⟩ := hK
    rw [hq]
    exact iterate_period_mul _ s _ (Nat.find_spec hex).2 q
  rcases proper_divisor_route _ hdvdP hne with h | h | h | h | h
  · exact hs0 (hzero 1431655765 (by simp) s hs (finish _ h))
  · exact hs0 (hzero 858993459 (by simp) s hs (finish _ h))
  · exact hs0 (hzero 252645135 (by simp) s hs (finish _ h))
  · exact hs0 (hzero 16711935 (by simp) s hs (finish _ h))
  · exact hs0 (hzero 65535 (by simp) s hs (finish _ h))

theorem xs_ne_zero_param
    (hfixP : ∀ v, v < 2 ^ 32 → xorshift32^[4294967295] v = v)
    (v : Nat) (hv : v < 2 ^ 32) (hv0 : v ≠ 0) : xorshift32 v ≠ 0 := by
  intro h0
  have h1 : xorshift32^[4294967295] v = v := hfixP v hv
  rw [show (4294967295 : Nat) = 4294967294 + 1 from rfl,
    Function.iterate_succ_apply, h0,
    Function.iterate_fixed xorshift32_zero 4294967294] at h1
  exact hv0 h1.symm

theorem iterate_xs_ne_zero_param
    (hfixP : ∀ v, v < 2 ^ 32 → xorshift32^[4294967295] v = v)
    (k : Nat) : ∀ v, v < 2 ^ 32 → v ≠ 0 → xorshift32^[k] v ≠ 0 := by
  induction k with
  | zero => intro v _ hv0; exact hv0
  | succ k ih =>
    intro v hv hv0
    rw [Function.iterate_succ_apply]
    exact ih _ (xorshift32_lt v) (xs_ne_zero_param hfixP v hv hv0)

theorem orbit_covers_param
    (hfixP : ∀ v, v < 2 ^ 32 → xorshift32^[4294967295] v = v)
    (hzero : ∀ K ∈ [1431655765, 858993459, 252645135, 16711935, 65535],
      ∀ u, u < 2 ^ 32 → xorshift32^[K] u = u → u = 0)
    (s t : Nat) (hs : s < 2 ^ 32) (hs0 : s ≠ 0) (ht : t < 2 ^ 32) (ht0 : t ≠ 0) :
    ∃ k, xorshift32^[k] s = t := by
  have hstep : ∀ i j, i < j → j < 4294967295 →
      xorshift32^[i] s = xorshift32^[j] s → False := by
    intro i j hij hj heq
    have h1 : xorshift32^[4294967295 - j] (xorshift32^[j] s) = s := by
      rw [← Function.iterate_add_apply,
        show 4294967295 - j + j = 4294967295 from by omega]
      exact hfixP s hs
    rw [← heq, ← Function.iterate_add_apply] at h1
    exact no_short_period_param hfixP hzero s (4294967295 - j + i) hs hs0
      (by omega) (by omega) h1
  have hinj : Set.InjOn (fun k => xorshift32^[k] s) ↑(Finset.range 4294967295) := by
    intro i hi j hj hij
    simp only [Finset.coe_range, Set.mem_Iio] at hi hj
    rcases Nat.lt_trichotomy i j with h | h | h
    · exact absurd (hstep i j h hj hij) (fun hf => hf)
    · exact h
    · exact absurd (hstep j i h hi hij.symm) (fun hf => hf)
  have hcard : ((Finset.range 4294967295).image (fun k => xorshift32^[k] s)).card
      = 4294967295 := by
    rw [Finset.card_image_of_injOn hinj, Finset.card_range]
  have hsub : (Finset.range 4294967295).image (fun k => xorshift32^[k] s)
      ⊆ (Finset.range (2 ^ 32)).erase 0 := by
    intro x hx
    rcases Finset.mem_image.mp hx with ⟨k, _, rfl⟩
    exact Finset.mem_erase.mpr
      ⟨iterate_xs_ne_zero_param hfixP k s hs hs0,
       Finset.mem_range.mpr (iterate_xs_lt k s hs)⟩
  have htc : ((Finset.range (2 ^ 32)).erase 0).card = 4294967295 := by
    rw [Finset.card_erase_of_mem (Finset.mem_range.mpr (by norm_num)),
      Finset.card_range]
    norm_num
  have heq : (Finset.range 4294967295).image (fun k => xorshift32^[k] s)
      = (Finset.range (2 ^ 32)).erase 0 :=
    Finset.eq_of_subset_of_card_le hsub (by rw [htc, hcard])
  have htm : t ∈ (Finset.range 4294967295).image (fun k => xorshift32^[k] s) := by
    rw [heq]
    exact Finset.mem_erase.mpr ⟨ht0, Finset.mem_range.mpr ht⟩
  obtain ⟨k, _, hk⟩ := Finset.mem_image.mp htm
  exact ⟨k, hk⟩

def colTarget (c : Nat) : Nat :=
  [1, 613566757, 1227133513, 1840700270, 2454267026, 3067833783, 3681400539].getD c 0

theorem colTarget_spec : ∀ c, c < 7 →
    colTarget c < 2 ^ 32 ∧ colTarget c ≠ 0 ∧ colDrawN (colTarget c) = c := by decide

theorem free_col_exists (taken : List Nat) (hlen : taken.length ≤ 5) :
    ∃ c, c < 7 ∧ c ∉ taken := by
  by_contra h
  push_neg at h
  have hsub : Finset.range 7 ⊆ taken.toFinset := by
    intro c hc
    exact List.mem_toFinset.mpr (h c (Finset.mem_range.mp hc))
  have h7 : (7 : Nat) ≤ taken.toFinset.card := by
    simpa using Finset.card_le_card hsub
  have := taken.toFinset_card_le
  omega

theorem spawnRowLoopN_bc_zero (turn fuel s : Nat) (taken : List Nat)
    (acc : List Block) :
    spawnRowLoopN turn fuel s taken acc 0 = some (acc, taken, s) := by
  unfold spawnRowLoopN
  rw [if_pos rfl]

theorem spawnRowLoopN_step (turn fuel s : Nat) (taken : List Nat)
    (acc : List Block) (bc : Nat) (hbc : bc ≠ 0) :
    spawnRowLoopN turn (fuel + 1) s taken acc bc =
      if colDrawN (xorshift32 s) ∈ taken
      then spawnRowLoopN turn fuel (xorshift32 s) taken acc bc
      else spawnRowLoopN turn fuel (xorshift32 (xorshift32 s))
        (colDrawN (xorshift32 s) :: taken)
        (acc ++ [⟨colDrawN (xorshift32 s), 0,
          strengthDrawN turn (xorshift32 (xorshift32 s)), .block, false⟩])
        (bc - 1) := by
  conv_lhs => unfold spawnRowLoopN
  rw [if_neg hbc]

theorem loopN_term_param
    (hfixP : ∀ v, v < 2 ^ 32 → xorshift32^[4294967295] v = v)
    (hzero : ∀ K ∈ [1431655765, 858993459, 252645135, 16711935, 65535],
      ∀ u, u < 2 ^ 32 → xorshift32^[K] u = u → u = 0)
    (turn : Nat) :
    ∀ bc s (taken : List Nat) (acc : List Block), s < 2 ^ 32 → s ≠ 0 →
      taken.length + bc ≤ 6 →
      ∃ fuel out, spawnRowLoopN turn fuel s taken acc bc = some out := by
  intro bc
  induction bc with
  | zero =>
    intro s taken acc _ _ _
    exact ⟨0, (acc, taken, s), spawnRowLoopN_bc_zero turn 0 s taken acc⟩
  | succ b ih =>
    intro s taken acc hs hs0 hlen
    obtain ⟨c, hc7, hcfree⟩ := free_col_exists taken (by omega)
    obtain ⟨hclt, hc0, hcdraw⟩ := colTarget_spec c hc7
    have inner : ∀ k s, s < 2 ^ 32 → s ≠ 0 →
        xorshift32^[k] (xorshift32 s) = colTarget c →
        ∃ fuel out, spawnRowLoopN turn fuel s taken acc (b + 1) = some out := by
      intro k
      induction k with
      | zero =>
        intro s hs hs0 hk0
        simp only [Function.iterate_zero, id] at hk0
        obtain ⟨fuel0, out0, hout⟩ := ih (xorshift32 (xorshift32 s))
          (colDrawN (xorshift32 s) :: taken)
          (acc ++ [⟨colDrawN (xorshift32 s), 0,
            strengthDrawN turn (xorshift32 (xorshift32 s)), .block, false⟩])
          (xorshift32_lt _)
          (xs_ne_zero_param hfixP _ (xorshift32_lt s)
            (xs_ne_zero_param hfixP s hs hs0))
          (by simp only [List.length_cons]; omega)
        refine ⟨fuel0 + 1, out0, ?_⟩
        rw [spawnRowLoopN_step turn fuel0 s taken acc (b + 1) (by omega)]
        rw [if_neg (by rw [hk0, hcdraw]; exact hcfree)]
        simpa using hout
      | succ k ihk =>
        intro s hs hs0 hk
        by_cases hmem : colDrawN (xorshift32 s) ∈ taken
        · obtain ⟨fuel0, out0, hout⟩ := ihk (xorshift32 s) (xorshift32_lt s)
            (xs_ne_zero_param hfixP s hs hs0)
            (by rw [← Function.iterate_succ_apply]; exact hk)
          refine ⟨fuel0 + 1, out0, ?_⟩
          rw [spawnRowLoopN_step turn fuel0 s taken acc (b + 1) (by omega),
            if_pos hmem]
          exact hout
        · obtain ⟨fuel0, out0, hout⟩ := ih (xorshift32 (xorshift32 s))
            (colDrawN (xorshift32 s) :: taken)
            (acc ++ [⟨colDrawN (xorshift32 s), 0,
              strengthDrawN turn (xorshift32 (xorshift32 s)), .block, false⟩])
            (xorshift32_lt _)
            (xs_ne_zero_param hfixP _ (xorshift32_lt s)
              (xs_ne_zero_param hfixP s hs hs0))
            (by simp only [List.length_cons]; omega)
          refine ⟨fuel0 + 1, out0, ?_⟩
          rw [spawnRowLoopN_step turn fuel0 s taken acc (b + 1) (by omega),
            if_neg hmem]
          simpa using hout
    obtain ⟨k, hk⟩ := orbit_covers_param hfixP hzero (xorshift32 s) (colTarget c)
      (xorshift32_lt s) (xs_ne_zero_param hfixP s hs hs0) hclt hc0
    exact inner k s hs hs0 hk

theorem spawnRowN_isSome_of_loop (fuel s turn : Nat) (blocks : List Block)
    (taken : List Nat) (s2 : Nat)
    (hloop : spawnRowLoopN turn fuel (xorshift32 s) [] []
      (xorshift32 s * 3 / 4294967295 + 3) = some (blocks, taken, s2)) :
    (spawnRowN fuel s turn).isSome = true := by
  simp only [spawnRowN, hloop]
  split
  · split
    · split <;> rfl
    · rfl
  · rfl

theorem spawnRowN_term_param
    (hfixP : ∀ v, v < 2 ^ 32 → xorshift32^[4294967295] v = v)
    (hzero : ∀ K ∈ [1431655765, 858993459, 252645135, 16711935, 65535],
      ∀ u, u < 2 ^ 32 → xorshift32^[K] u = u → u = 0)
    (s turn : Nat) (hs : s < 2 ^ 32) (hs0 : s ≠ 0) :
    ∃ fuel, (spawnRowN fuel s turn).isSome = true := by
  have hbc : xorshift32 s * 3 / 4294967295 + 3 ≤ 6 := by
    have := xorshift32_lt s
    omega
  obtain ⟨fuel, ⟨blocks, taken, s2⟩, hloop⟩ := loopN_term_param hfixP hzero turn
    (xorshift32 s * 3 / 4294967295 + 3) (xorshift32 s) [] []
    (xorshift32_lt s) (xs_ne_zero_param hfixP s hs hs0)
    (by simpa using hbc)
  exact ⟨fuel, spawnRowN_isSome_of_loop fuel s turn blocks taken s2 hloop⟩

def Pinv3 : List Nat := [3335786257, 3906425407, 341432259, 3494094572, 1287699228, 2747661528, 2150333198, 1082698387, 2611265886, 3557500517, 3637289613, 2868896625, 410369362, 1269330915, 4088754115, 154103209, 1548993245, 1491119919, 2404261344, 3419380581, 2808848906, 551830956, 2331709170, 188466835, 3017353089, 1526152647, 441219537, 2121271239, 792014187, 2569338613, 2655281178, 105270877]
def Pinv5 : List Nat := [3037765269, 3182012677, 1669387622, 2344659563, 370929321, 3901211764, 1380852402, 4210098316, 2969553326, 2348631362, 1854761326, 1663573681, 1840518332, 1230994099, 4206056119, 2280264177, 2761711817, 2141840559, 1783100198, 2364816481, 1110627307, 3500024705, 2915665707, 311039995, 1912523766, 1756755554, 3294084956, 326808620, 2100464665, 1580234416, 2287416289, 4045495915]
def Pinv17 : List Nat := [2080738118, 4098161938, 4167003272, 262081113, 4280086534, 4185094329, 2355677745, 3596925114, 3587069701, 2535039379, 1691659854, 3661366594, 3081963516, 2254921635, 205510780, 2576529806, 3889960224, 3965609850, 1675181996, 1663335326, 464242227, 164803375, 1135727768, 3702832275, 733074617, 3475373130, 3364815054, 2204756806, 2769922784, 2141131413, 4189123440, 1776631044]
def Pinv257 : List Nat := [1940479401, 668616311, 607776604, 3685168204, 1129029766, 648810898, 3303171155, 235886680, 3828553010, 2674952864, 3259775758, 1952802776, 3122666590, 807405955, 2074935119, 10541013, 2953885123, 3744595128, 1051926783, 353530678, 151549380, 394224902, 2319156462, 238374970, 180587326, 3341967654, 1264618217, 3233456239, 2630374898, 2982569044, 4209708186, 2989590033]
def Pinv65537 : List Nat := [331728430, 2488218541, 1209385696, 682878283, 839817293, 1408035726, 4013029473, 4095696576, 1033618122, 2301755989, 769798078, 4185028050, 2663489015, 2683529367, 4136185144, 2950586883, 1578865829, 2816851372, 349201241, 3096975940, 3937016935, 2625434786, 2636012314, 211073125, 3311055944, 1920044434, 2025742764, 2060168078, 4064662879, 1177042686, 3953608156, 586778632]

set_option maxRecDepth 10000 in
theorem powM_M0_P : powM M0 4294967295 = idM := by decide

set_option maxRecDepth 10000 in
theorem inv3_eq : compM Pinv3 (addM (powM M0 1431655765) idM) = idM := by decide

set_option maxRecDepth 10000 in
theorem inv5_eq : compM Pinv5 (addM (powM M0 858993459) idM) = idM := by decide

set_option maxRecDepth 10000 in
theorem inv17_eq : compM Pinv17 (addM (powM M0 252645135) idM) = idM := by decide

set_option maxRecDepth 10000 in
theorem inv257_eq : compM Pinv257 (addM (powM M0 16711935) idM) = idM := by decide

set_option maxRecDepth 10000 in
theorem inv65537_eq : compM Pinv65537 (addM (powM M0 65535) idM) = idM := by decide

theorem xs_iter_P : ∀ v, v < 2 ^ 32 → xorshift32^[4294967295] v = v :=
  fixed_of_powM_eq_idM 4294967295 (by norm_num) powM_M0_P

theorem xs_zero_periods :
    ∀ K ∈ [1431655765, 858993459, 252645135, 16711935, 65535],
      ∀ u, u < 2 ^ 32 → xorshift32^[K] u = u → u = 0 := by
  intro K hK u hu hper
  simp only [List.mem_cons, List.not_mem_nil, or_false] at hK
  rcases hK with rfl | rfl | rfl | rfl | rfl
  · exact zero_of_period _ Pinv3 (by norm_num) inv3_eq u hu hper
  · exact zero_of_period _ Pinv5 (by norm_num) inv5_eq u hu hper
  · exact zero_of_period _ Pinv17 (by norm_num) inv17_eq u hu hper
  · exact zero_of_period _ Pinv257 (by norm_num) inv257_eq u hu hper
  · exact zero_of_period _ Pinv65537 (by norm_num) inv65537_eq u hu hper

theorem spawnRowN_term (s turn : Nat) (hs : s < 2 ^ 32) (hs0 : s ≠ 0) :
    ∃ fuel, (spawnRowN fuel s turn).isSome = true :=
  spawnRowN_term_param xs_iter_P xs_zero_periods s turn hs hs0

/-- **C9 (amended).**  `spawnRow` terminates for every nonzero 32-bit RNG
state: some fuel bound makes it return `some`.  (At state 0 the generator
is a fixed point and the loop diverges; see the counterexample above.) -/
theorem claim_C9_amended (s turn : Nat) (hs : s < 2 ^ 32) (hs0 : s ≠ 0) :
    ∃ fuel, (spawnRow fuel s turn).isSome = true := by
  obtain ⟨fuel, h⟩ := spawnRowN_term s turn hs hs0
  refine ⟨fuel, ?_⟩
  rw [spawnRow_eq_spawnRowN]
  exact h

/-- Witness for the amended C9 at the concrete nonzero seed 1. -/
theorem claim_C9_witness :
    1 < 2 ^ 32 ∧ (1 : Nat) ≠ 0 ∧ ∃ fuel, (spawnRow fuel 1 1).isSome = true :=
  ⟨by decide, by decide, claim_C9_amended 1 1 (by decide) (by decide)⟩


/-! ## Collision resolver (`Game.circleRectCollision`, both variants)

```js
circleRectCollision(ball, rect) {
  const closestX = clamp(ball.x, rect.x, rect.x + rect.w);
  const closestY = clamp(ball.y, rect.y, rect.y + rect.h);
  const dx = ball.x - closestX;
  const dy = ball.y - closestY;
  return dx * dx + dy * dy < BALL_RADIUS * BALL_RADIUS;
}
```
with `clamp = (value, min, max) => Math.max(min, Math.min(max, value))`. -/

def BALL_RADIUS : ℚ := 7

/-- `const clamp = (value, min, max) => Math.max(min, Math.min(max, value))`. -/
def clamp (value lo hi : ℚ) : ℚ := max lo (min hi value)

/-- Axis-aligned rectangle `{x, y, w, h}` (top-left corner plus size). -/
structure Rect where
  x : ℚ
  y : ℚ
  w : ℚ
  h : ℚ
deriving DecidableEq, Repr

/-- Squared distance between two points. -/
def distSq (ax ay bx bz : ℚ) : ℚ := (ax - bx) * (ax - bx) + (ay - bz) * (ay - bz)

/-- `Game.circleRectCollision` on the ball's center coordinates. -/
def circleRectCollision (cx cy : ℚ) (r : Rect) : Bool :=
  let closestX := clamp cx r.x (r.x + r.w)
  let closestY := clamp cy r.y (r.y + r.h)
  decide (distSq cx cy closestX closestY < BALL_RADIUS * BALL_RADIUS)

/-- Membership of a point in the (closed) rectangle. -/
def inRect (px py : ℚ) (r : Rect) : Prop :=
  r.x ≤ px ∧ px ≤ r.x + r.w ∧ r.y ≤ py ∧ py ≤ r.y + r.h

theorem clamp_le {v lo hi : ℚ} (h : lo ≤ hi) : lo ≤ clamp v lo hi ∧ clamp v lo hi ≤ hi := by
  unfold clamp
  constructor
  · exact le_max_left _ _
  · exact max_le h (min_le_left _ _)

theorem clamp_dist_le (v lo hi p : ℚ) (h1 : lo ≤ p) (h2 : p ≤ hi) :
    (v - clamp v lo hi) * (v - clamp v lo hi) ≤ (v - p) * (v - p) := by
  unfold clamp
  rcases le_total v lo with hv | hv
  · rw [max_eq_left (le_trans (min_le_right _ _) hv)]
    nlinarith
  · rcases le_total hi v with hv2 | hv2
    · rw [min_eq_left hv2, max_eq_right (le_trans h1 h2)]
      nlinarith
    · rw [min_eq_right hv2, max_eq_right hv]
      nlinarith

/-- **C6.** `circleRectCollision(ball, rect)` returns `true` exactly when
the squared distance from the ball's center to its clamp into the
rectangle bounds is strictly below `BALL_RADIUS²`; the clamped point
minimises the distance over the rectangle, so (for a well-formed
rectangle) the test succeeds iff some point of the rectangle — in
particular any boundary point strictly inside the circle — is strictly
within `BALL_RADIUS` of the center, and fails whenever every point of the
rectangle is at least `BALL_RADIUS` away. -/
theorem claim_C6 (cx cy : ℚ) (r : Rect) (hw : 0 ≤ r.w) (hh : 0 ≤ r.h) :
    (circleRectCollision cx cy r = true ↔
      distSq cx cy (clamp cx r.x (r.x + r.w)) (clamp cy r.y (r.y + r.h)) <
        BALL_RADIUS * BALL_RADIUS) ∧
    (∀ px py, inRect px py r →
      distSq cx cy (clamp cx r.x (r.x + r.w)) (clamp cy r.y (r.y + r.h)) ≤
        distSq cx cy px py) ∧
    (circleRectCollision cx cy r = true ↔
      ∃ px py, inRect px py r ∧ distSq cx cy px py < BALL_RADIUS * BALL_RADIUS) := by
  have hdef : circleRectCollision cx cy r = true ↔
      distSq cx cy (clamp cx r.x (r.x + r.w)) (clamp cy r.y (r.y + r.h)) <
        BALL_RADIUS * BALL_RADIUS := by
    unfold circleRectCollision
    exact decide_eq_true_iff
  have hmin : ∀ px py, inRect px py r →
      distSq cx cy (clamp cx r.x (r.x + r.w)) (clamp cy r.y (r.y + r.h)) ≤
        distSq cx cy px py := by
    intro px py hp
    obtain ⟨hp1, hp2, hp3, hp4⟩ := hp
    unfold distSq
    have hx := clamp_dist_le cx r.x (r.x + r.w) px hp1 hp2
    have hy := clamp_dist_le cy r.y (r.y + r.h) py hp3 hp4
    linarith
  refine ⟨hdef, hmin, hdef.trans ⟨?_, ?_⟩⟩
  · intro hlt
    refine ⟨clamp cx r.x (r.x + r.w), clamp cy r.y (r.y + r.h), ?_, hlt⟩
    have hx := clamp_le (v := cx) (by linarith : r.x ≤ r.x + r.w)
    have hy := clamp_le (v := cy) (by linarith : r.y ≤ r.y + r.h)
    exact ⟨hx.1, hx.2, hy.1, hy.2⟩
  · rintro ⟨px, py, hp, hlt⟩
    exact lt_of_le_of_lt (hmin px py hp) hlt

/-- **C6 (witness).**  A ball centered inside a concrete block rectangle
collides with it. -/
theorem claim_C6_witness :
    circleRectCollision 50 50 ⟨6, 6, 88, 88⟩ = true := by
  have h := claim_C6 50 50 ⟨6, 6, 88, 88⟩ (by norm_num) (by norm_num)
  refine h.2.2.mpr ⟨50, 50, ⟨?_, ?_, ?_, ?_⟩, ?_⟩ <;>
    norm_num [distSq, BALL_RADIUS]


/-! ## Variant 1: grid blocks, pickups, collision pass (`Game.handleCollisions`)

```js
handleCollisions(ball) {
  for (const block of this.blocks) {
    if (block.destroyed) continue;
    const rect = block.rect;
    if (this.circleRectCollision(ball, rect)) {
      const prevX = ball.x - ball.vx;
      const prevY = ball.y - ball.vy;
      const isHorizontal = prevY + BALL_RADIUS <= rect.y || prevY - BALL_RADIUS >= rect.y + rect.h;
      if (block.type === "pickup") {
        block.destroyed = true;
        this.ballChain++;
        this.score += 10;
        this.updateHUD();
      } else if (block.type === "block") {
        block.strength -= 1;
        this.score += 5;
      }
      this.spawnHitParticles(...);
      if ((block.type === "block" && block.strength <= 0) || block.destroyed) {
        block.destroyed = true;
      }
      if (isHorizontal) { ball.vy *= -1; } else { ball.vx *= -1; }
    }
  }
  this.blocks = this.blocks.filter((block) => !block.destroyed);
}
```
Particles and HUD updates are cosmetic sinks and are not modelled.  The
play-area width `W` (`GAME_WIDTH = canvas.width`) is a parameter;
`GRID_SIZE = W / GRID_COLUMNS`. -/

/-- The rectangle of a grid block: `x = col*GRID_SIZE + 6`,
`y = row*GRID_SIZE + 6`, `size = GRID_SIZE - 12`. -/
def Block.rectOf (W : ℚ) (b : Block) : Rect :=
  ⟨(b.col : ℚ) * (W / (GRID_COLUMNS : ℚ)) + 6, (b.row : ℚ) * (W / (GRID_COLUMNS : ℚ)) + 6,
    W / (GRID_COLUMNS : ℚ) - 12, W / (GRID_COLUMNS : ℚ) - 12⟩

/-- Variant-1 ball (no `prevX/prevY` fields; the previous position is
reconstructed as `x - vx`, `y - vy`). -/
structure BallV1 where
  x : ℚ
  y : ℚ
  vx : ℚ
  vy : ℚ
  resting : Bool
deriving DecidableEq, Repr

/-- Result of one body iteration / of a whole collision pass. -/
structure Step1Result where
  ball : BallV1
  score : ℕ
  chain : ℕ
  block : Block
deriving Repr

structure Pass1Result where
  ball : BallV1
  score : ℕ
  chain : ℕ
  blocks : List Block
deriving Repr

/-- The once-hit update of a standard block: strength decremented, then
marked destroyed when the new strength is ≤ 0. -/
def hitStd (b : Block) : Block :=
  { b with strength := b.strength - 1, destroyed := decide (b.strength - 1 ≤ 0) }

/-- One iteration of the `for (const block of this.blocks)` body. -/
def collideStep1 (W : ℚ) (ball : BallV1) (score chain : ℕ) (b : Block) : Step1Result :=
  if b.destroyed then ⟨ball, score, chain, b⟩
  else
    let rect := Block.rectOf W b
    if circleRectCollision ball.x ball.y rect then
      let prevY := ball.y - ball.vy
      let isHorizontal : Prop :=
        prevY + BALL_RADIUS ≤ rect.y ∨ rect.y + rect.h ≤ prevY - BALL_RADIUS
      let hit :=
        if b.type = BlockType.pickup then
          (score + 10, chain + 1, { b with destroyed := true })
        else if b.type = BlockType.block then
          (score + 5, chain, { b with strength := b.strength - 1 })
        else (score, chain, b)
      let b2 :=
        if (hit.2.2.type = BlockType.block ∧ hit.2.2.strength ≤ 0) ∨ hit.2.2.destroyed = true
        then { hit.2.2 with destroyed := true } else hit.2.2
      let ball' :=
        if isHorizontal then { ball with vy := -ball.vy } else { ball with vx := -ball.vx }
      ⟨ball', hit.1, hit.2.1, b2⟩
    else ⟨ball, score, chain, b⟩

/-- The full `for`-loop of variant 1's `handleCollisions` (before the
pruning filter), threading the ball and the session counters. -/
def collidePass1 (W : ℚ) : BallV1 → ℕ → ℕ → List Block → Pass1Result
  | ball, score, chain, [] => ⟨ball, score, chain, []⟩
  | ball, score, chain, b :: rest =>
    let s := collideStep1 W ball score chain b
    let r := collidePass1 W s.ball s.score s.chain rest
    { r with blocks := s.block :: r.blocks }

/-- Variant 1's `Game.handleCollisions(ball)`: the loop, then
`this.blocks = this.blocks.filter((block) => !block.destroyed)`. -/
def handleCollisions1 (W : ℚ) (ball : BallV1) (score chain : ℕ)
    (blocks : List Block) : Pass1Result :=
  let r := collidePass1 W ball score chain blocks
  { r with blocks := r.blocks.filter (fun b => !b.destroyed) }

/-- Static hit predicate: the pass hits exactly the non-destroyed blocks
whose rectangle intersects the circle at the ball's (loop-invariant)
center. -/
def blockHit (W cx cy : ℚ) (b : Block) : Bool :=
  !b.destroyed && circleRectCollision cx cy (Block.rectOf W b)

def pickupHit (W cx cy : ℚ) (b : Block) : Bool :=
  blockHit W cx cy b && b.type == BlockType.pickup

def stdHit (W cx cy : ℚ) (b : Block) : Bool :=
  blockHit W cx cy b && b.type == BlockType.block

theorem collideStep1_pos (W : ℚ) (ball : BallV1) (score chain : ℕ) (b : Block) :
    (collideStep1 W ball score chain b).ball.x = ball.x ∧
      (collideStep1 W ball score chain b).ball.y = ball.y := by
  unfold collideStep1
  by_cases hd : b.destroyed
  · simp [hd]
  · simp only [hd, if_false]
    by_cases hc : circleRectCollision ball.x ball.y (Block.rectOf W b)
    · simp only [hc, if_true]
      by_cases hh : ball.y - ball.vy + BALL_RADIUS ≤ (Block.rectOf W b).y ∨
          (Block.rectOf W b).y + (Block.rectOf W b).h ≤ ball.y - ball.vy - BALL_RADIUS
      · simp [hh]
      · simp [hh]
    · simp [hc]

theorem collideStep1_miss (W : ℚ) (ball : BallV1) (score chain : ℕ) (b : Block)
    (h : blockHit W ball.x ball.y b = false) :
    collideStep1 W ball score chain b = ⟨ball, score, chain, b⟩ := by
  unfold blockHit at h
  unfold collideStep1
  by_cases hd : b.destroyed
  · simp [hd]
  · simp only [hd, if_false]
    simp only [hd, Bool.not_false, Bool.true_and] at h
    simp [h]

theorem collideStep1_pickup (W : ℚ) (ball : BallV1) (score chain : ℕ) (b : Block)
    (h : pickupHit W ball.x ball.y b = true) :
    (collideStep1 W ball score chain b).score = score + 10 ∧
      (collideStep1 W ball score chain b).chain = chain + 1 ∧
      (collideStep1 W ball score chain b).block = { b with destroyed := true } := by
  unfold pickupHit blockHit at h
  simp only [Bool.and_eq_true, Bool.not_eq_true'] at h
  obtain ⟨⟨hd, hc⟩, hty⟩ := h
  have hty2 : b.type = BlockType.pickup := eq_of_beq hty
  simp [collideStep1, hd, hc, hty2]

theorem collideStep1_std (W : ℚ) (ball : BallV1) (score chain : ℕ) (b : Block)
    (h : stdHit W ball.x ball.y b = true) :
    (collideStep1 W ball score chain b).score = score + 5 ∧
      (collideStep1 W ball score chain b).chain = chain ∧
      (collideStep1 W ball score chain b).block = hitStd b := by
  unfold stdHit blockHit at h
  simp only [Bool.and_eq_true, Bool.not_eq_true'] at h
  obtain ⟨⟨hd, hc⟩, hty⟩ := h
  have hty2 : b.type = BlockType.block := eq_of_beq hty
  by_cases hs : b.strength - 1 ≤ 0
  · simp [collideStep1, hd, hc, hty2, hitStd, hs]
  · simp [collideStep1, hd, hc, hty2, hitStd, hs]

theorem collidePass1_pos (W : ℚ) :
    ∀ (blocks : List Block) (ball : BallV1) (score chain : ℕ),
      (collidePass1 W ball score chain blocks).ball.x = ball.x ∧
        (collidePass1 W ball score chain blocks).ball.y = ball.y := by
  intro blocks
  induction blocks with
  | nil => intro ball score chain; exact ⟨rfl, rfl⟩
  | cons b rest ih =>
    intro ball score chain
    have hstep := collideStep1_pos W ball score chain b
    have hrec := ih (collideStep1 W ball score chain b).ball
      (collideStep1 W ball score chain b).score (collideStep1 W ball score chain b).chain
    unfold collidePass1
    exact ⟨hrec.1.trans hstep.1, hrec.2.trans hstep.2⟩

theorem collidePass1_length (W : ℚ) :
    ∀ (blocks : List Block) (ball : BallV1) (score chain : ℕ),
      (collidePass1 W ball score chain blocks).blocks.length = blocks.length := by
  intro blocks
  induction blocks with
  | nil => intro ball score chain; rfl
  | cons b rest ih =>
    intro ball score chain
    unfold collidePass1
    simp only [List.length_cons]
    rw [ih]

theorem collidePass1_nil (W : ℚ) (ball : BallV1) (score chain : ℕ) :
    collidePass1 W ball score chain [] = ⟨ball, score, chain, []⟩ := rfl

theorem collidePass1_cons (W : ℚ) (ball : BallV1) (score chain : ℕ)
    (b : Block) (rest : List Block) :
    collidePass1 W ball score chain (b :: rest) =
      { collidePass1 W (collideStep1 W ball score chain b).ball
          (collideStep1 W ball score chain b).score
          (collideStep1 W ball score chain b).chain rest with
        blocks := (collideStep1 W ball score chain b).block ::
          (collidePass1 W (collideStep1 W ball score chain b).ball
            (collideStep1 W ball score chain b).score
            (collideStep1 W ball score chain b).chain rest).blocks } := rfl

theorem collidePass1_append (W : ℚ) (l₁ l₂ : List Block) :
    ∀ (ball : BallV1) (score chain : ℕ),
      collidePass1 W ball score chain (l₁ ++ l₂) =
        ⟨(collidePass1 W (collidePass1 W ball score chain l₁).ball
            (collidePass1 W ball score chain l₁).score
            (collidePass1 W ball score chain l₁).chain l₂).ball,
          (collidePass1 W (collidePass1 W ball score chain l₁).ball
            (collidePass1 W ball score chain l₁).score
            (collidePass1 W ball score chain l₁).chain l₂).score,
          (collidePass1 W (collidePass1 W ball score chain l₁).ball
            (collidePass1 W ball score chain l₁).score
            (collidePass1 W ball score chain l₁).chain l₂).chain,
          (collidePass1 W ball score chain l₁).blocks ++
            (collidePass1 W (collidePass1 W ball score chain l₁).ball
              (collidePass1 W ball score chain l₁).score
              (collidePass1 W ball score chain l₁).chain l₂).blocks⟩ := by
  induction l₁ with
  | nil => intro ball score chain; rfl
  | cons b rest ih =>
    intro ball score chain
    simp only [List.cons_append, collidePass1_cons, ih]

theorem hitStd_iterate (b : Block) :
    ∀ k : ℕ, (hitStd^[k] b).strength = b.strength - k ∧
      (hitStd^[k] b).type = b.type ∧
      (1 ≤ k → (hitStd^[k] b).destroyed = decide (b.strength - k ≤ 0)) := by
  intro k
  induction k with
  | zero => simp
  | succ k ih =>
    rw [Function.iterate_succ_apply']
    refine ⟨?_, ?_, ?_⟩
    · show (hitStd^[k] b).strength - 1 = b.strength - (k + 1 : ℕ)
      rw [ih.1]
      push_cast
      ring
    · exact ih.2.1
    · intro _
      show decide ((hitStd^[k] b).strength - 1 ≤ 0) = decide (b.strength - ((k + 1 : ℕ) : ℤ) ≤ 0)
      rw [ih.1, show b.strength - (k : ℤ) - 1 = b.strength - ((k + 1 : ℕ) : ℤ) by push_cast; ring]

/-- **C3.** A standard (non-pickup) block of initial strength `s ≥ 1`
survives each of the first `s-1` hits (still non-destroyed, still in the
active collection with its strength decremented), becomes destroyed
exactly on the `s`-th hit, and destroyed blocks are pruned from the
active collection only by the filter at the end of the ball's collision
pass (the processed list of the pass still holds the hit block at its
position). -/
theorem claim_C3 (W : ℚ) (ball : BallV1) (score chain : ℕ) (l₁ l₂ : List Block)
    (b : Block) (hty : b.type = BlockType.block) (hnd : b.destroyed = false)
    (hs : 1 ≤ b.strength)
    (hhit : circleRectCollision ball.x ball.y (Block.rectOf W b) = true) :
    (∀ k : ℕ, (k : ℤ) < b.strength → (hitStd^[k] b).destroyed = false) ∧
    (hitStd^[b.strength.toNat] b).destroyed = true ∧
    (∃ p₁ p₂, (collidePass1 W ball score chain (l₁ ++ b :: l₂)).blocks =
        p₁ ++ hitStd b :: p₂ ∧ p₁.length = l₁.length) ∧
    (handleCollisions1 W ball score chain (l₁ ++ b :: l₂)).blocks =
      ((collidePass1 W ball score chain (l₁ ++ b :: l₂)).blocks).filter
        (fun x => !x.destroyed) ∧
    (2 ≤ b.strength →
      hitStd b ∈ (handleCollisions1 W ball score chain (l₁ ++ b :: l₂)).blocks ∧
        (hitStd b).destroyed = false ∧ (hitStd b).strength = b.strength - 1) ∧
    (b.strength ≤ 1 → (hitStd b).destroyed = true) := by
  have hsplit : ∃ p₁ p₂, (collidePass1 W ball score chain (l₁ ++ b :: l₂)).blocks =
      p₁ ++ hitStd b :: p₂ ∧ p₁.length = l₁.length := by
    have hpos := collidePass1_pos W l₁ ball score chain
    have hstd : stdHit W (collidePass1 W ball score chain l₁).ball.x
        (collidePass1 W ball score chain l₁).ball.y b = true := by
      unfold stdHit blockHit
      rw [hpos.1, hpos.2]
      simp [hnd, hhit, hty]
    have hstep := collideStep1_std W (collidePass1 W ball score chain l₁).ball
      (collidePass1 W ball score chain l₁).score (collidePass1 W ball score chain l₁).chain b hstd
    have heq : (collidePass1 W ball score chain (l₁ ++ b :: l₂)).blocks =
        (collidePass1 W ball score chain l₁).blocks ++ hitStd b ::
          (collidePass1 W
            (collideStep1 W (collidePass1 W ball score chain l₁).ball
              (collidePass1 W ball score chain l₁).score
              (collidePass1 W ball score chain l₁).chain b).ball
            (collideStep1 W (collidePass1 W ball score chain l₁).ball
              (collidePass1 W ball score chain l₁).score
              (collidePass1 W ball score chain l₁).chain b).score
            (collideStep1 W (collidePass1 W ball score chain l₁).ball
              (collidePass1 W ball score chain l₁).score
              (collidePass1 W ball score chain l₁).chain b).chain l₂).blocks := by
      rw [collidePass1_append]
      simp only [collidePass1_cons]
      rw [hstep.2.2]
    exact ⟨_, _, heq, collidePass1_length W l₁ ball score chain⟩
  have hiter := hitStd_iterate b
  refine ⟨?_, ?_, hsplit, rfl, ?_, ?_⟩
  · intro k hk
    cases k with
    | zero => simpa using hnd
    | succ k =>
      rw [(hiter (k+1)).2.2 (by omega)]
      simp only [decide_eq_false_iff_not, not_le]
      push_cast at hk ⊢
      omega
  · rw [(hiter b.strength.toNat).2.2 (by omega)]
    simp only [decide_eq_true_eq]
    omega
  · intro h2
    have hdes : (hitStd b).destroyed = false := by
      have := (hiter 1).2.2 (le_refl 1)
      simp only [Function.iterate_one] at this
      rw [this]
      simp only [decide_eq_false_iff_not, not_le]
      push_cast
      omega
    refine ⟨?_, hdes, rfl⟩
    obtain ⟨p₁, p₂, heq, _⟩ := hsplit
    unfold handleCollisions1
    simp only [heq]
    rw [List.filter_append]
    refine List.mem_append_right _ ?_
    rw [List.filter_cons_of_pos]
    · exact List.mem_cons_self _ _
    · simp [hdes]
  · intro h1
    have := (hiter 1).2.2 (le_refl 1)
    simp only [Function.iterate_one] at this
    rw [this]
    simp only [decide_eq_true_eq]
    omega

/-- **C3 (witness).**  A concrete strength-2 block hit once: decremented,
not destroyed, still active; hit a second time it is destroyed. -/
theorem claim_C3_witness :
    ∃ r, handleCollisions1 700 ⟨50, 50, 0, -5, false⟩ 0 1
        ([] ++ (⟨0, 0, 2, .block, false⟩ : Block) :: []) = r ∧
      hitStd ⟨0, 0, 2, .block, false⟩ ∈ r.blocks ∧
      (hitStd ⟨0, 0, 2, .block, false⟩).destroyed = false ∧
      (hitStd^[(2 : ℤ).toNat] (⟨0, 0, 2, .block, false⟩ : Block)).destroyed = true := by
  have hhit : circleRectCollision (50 : ℚ) 50 (Block.rectOf 700 ⟨0, 0, 2, .block, false⟩) = true := by
    unfold circleRectCollision Block.rectOf clamp distSq BALL_RADIUS GRID_COLUMNS
    norm_num
  have h := claim_C3 700 ⟨50, 50, 0, -5, false⟩ 0 1 [] [] ⟨0, 0, 2, .block, false⟩
    rfl rfl (by norm_num) hhit
  exact ⟨_, rfl, (h.2.2.2.2.1 (by norm_num)).1, (h.2.2.2.2.1 (by norm_num)).2.1, h.2.1⟩

/-- **C5.** Over a full collision pass, the chain count grows by exactly
the number of pickup blocks the ball collides with (one per pickup), the
score grows by 10 per pickup collision (plus 5 per standard-block hit),
every collided pickup is immediately marked destroyed — at its position
in the processed list, whatever its strength — and destroyed blocks are
exactly what the end-of-pass filter removes from the active collection. -/
theorem claim_C5 (W : ℚ) (ball : BallV1) (score chain : ℕ) (blocks : List Block) :
    (collidePass1 W ball score chain blocks).chain =
        chain + (blocks.filter (pickupHit W ball.x ball.y)).length ∧
    (collidePass1 W ball score chain blocks).score =
        score + 10 * (blocks.filter (pickupHit W ball.x ball.y)).length
              + 5 * (blocks.filter (stdHit W ball.x ball.y)).length ∧
    (handleCollisions1 W ball score chain blocks).chain =
        (collidePass1 W ball score chain blocks).chain ∧
    (∀ l₁ b l₂, blocks = l₁ ++ b :: l₂ → pickupHit W ball.x ball.y b = true →
      ∃ p₁ p₂, (collidePass1 W ball score chain blocks).blocks =
          p₁ ++ ({ b with destroyed := true }) :: p₂ ∧ p₁.length = l₁.length) ∧
    (handleCollisions1 W ball score chain blocks).blocks =
      ((collidePass1 W ball score chain blocks).blocks).filter (fun x => !x.destroyed) ∧
    (∀ b : Block, b.destroyed = true →
      b ∉ (handleCollisions1 W ball score chain blocks).blocks) := by
  have hacct : ∀ (bs : List Block) (bl : BallV1) (sc ch : ℕ),
      (collidePass1 W bl sc ch bs).chain =
          ch + (bs.filter (pickupHit W bl.x bl.y)).length ∧
        (collidePass1 W bl sc ch bs).score =
          sc + 10 * (bs.filter (pickupHit W bl.x bl.y)).length
             + 5 * (bs.filter (stdHit W bl.x bl.y)).length := by
    intro bs
    induction bs with
    | nil => intro bl sc ch; simp [collidePass1]
    | cons b rest ih =>
      intro bl sc ch
      have hpos := collideStep1_pos W bl sc ch b
      have hrec := ih (collideStep1 W bl sc ch b).ball
        (collideStep1 W bl sc ch b).score (collideStep1 W bl sc ch b).chain
      unfold collidePass1
      simp only
      rw [hrec.1, hrec.2, hpos.1, hpos.2]
      by_cases hbh : blockHit W bl.x bl.y b = true
      · cases hbt : b.type with
        | pickup =>
          have hph : pickupHit W bl.x bl.y b = true := by
            unfold pickupHit
            simp [hbh, hbt]
          have hsh : stdHit W bl.x bl.y b = false := by
            unfold stdHit
            simp [hbt]
          have hstep := collideStep1_pickup W bl sc ch b hph
          rw [List.filter_cons_of_pos (by simpa using hph),
            List.filter_cons_of_neg (by simpa using hsh), hstep.1, hstep.2.1]
          constructor <;> simp <;> ring
        | block =>
          have hph : pickupHit W bl.x bl.y b = false := by
            unfold pickupHit
            simp [hbt]
          have hsh : stdHit W bl.x bl.y b = true := by
            unfold stdHit
            simp [hbh, hbt]
          have hstep := collideStep1_std W bl sc ch b hsh
          rw [List.filter_cons_of_neg (by simpa using hph),
            List.filter_cons_of_pos (by simpa using hsh), hstep.1, hstep.2.1]
          constructor <;> simp <;> ring
      · have hph : pickupHit W bl.x bl.y b = false := by
          unfold pickupHit
          simp only [Bool.eq_false_iff, ne_eq] at hbh ⊢
          simp [Bool.and_eq_true]
          intro hc
          exact absurd hc hbh
        have hsh : stdHit W bl.x bl.y b = false := by
          unfold stdHit
          simp only [Bool.eq_false_iff, ne_eq] at hbh ⊢
          simp [Bool.and_eq_true]
          intro hc
          exact absurd hc hbh
        have hmiss := collideStep1_miss W bl sc ch b (by simpa using hbh)
        rw [List.filter_cons_of_neg (by simpa using hph),
          List.filter_cons_of_neg (by simpa using hsh), hmiss]
        exact ⟨rfl, rfl⟩
  refine ⟨(hacct blocks ball score chain).1, (hacct blocks ball score chain).2, rfl, ?_, rfl, ?_⟩
  · intro l₁ b l₂ hsplit hph
    subst hsplit
    have hpos := collidePass1_pos W l₁ ball score chain
    have hph' : pickupHit W (collidePass1 W ball score chain l₁).ball.x
        (collidePass1 W ball score chain l₁).ball.y b = true := by
      rw [hpos.1, hpos.2]
      exact hph
    have hstep := collideStep1_pickup W (collidePass1 W ball score chain l₁).ball
      (collidePass1 W ball score chain l₁).score
      (collidePass1 W ball score chain l₁).chain b hph'
    have heq : (collidePass1 W ball score chain (l₁ ++ b :: l₂)).blocks =
        (collidePass1 W ball score chain l₁).blocks ++ ({ b with destroyed := true }) ::
          (collidePass1 W
            (collideStep1 W (collidePass1 W ball score chain l₁).ball
              (collidePass1 W ball score chain l₁).score
              (collidePass1 W ball score chain l₁).chain b).ball
            (collideStep1 W (collidePass1 W ball score chain l₁).ball
              (collidePass1 W ball score chain l₁).score
              (collidePass1 W ball score chain l₁).chain b).score
            (collideStep1 W (collidePass1 W ball score chain l₁).ball
              (collidePass1 W ball score chain l₁).score
              (collidePass1 W ball score chain l₁).chain b).chain l₂).blocks := by
      rw [collidePass1_append]
      simp only [collidePass1_cons]
      rw [hstep.2.2]
    exact ⟨_, _, heq, collidePass1_length W l₁ ball score chain⟩
  · intro b hdes hmem
    unfold handleCollisions1 at hmem
    simp only [List.mem_filter] at hmem
    rw [hdes] at hmem
    simpa using hmem.2

/-- **C5 (witness).**  A concrete pass over a strength-7 pickup and a
missed block: chain `1 → 2`, score `0 → 10`, the pickup is marked
destroyed in the processed list and absent from the active collection. -/
theorem claim_C5_witness :
    (collidePass1 700 ⟨50, 50, 0, -5, false⟩ 0 1
        [⟨0, 0, 7, .pickup, false⟩] ).chain = 1 + 1 ∧
    (collidePass1 700 ⟨50, 50, 0, -5, false⟩ 0 1
        [⟨0, 0, 7, .pickup, false⟩] ).score = 0 + 10 * 1 + 5 * 0 ∧
    (∃ p₁ p₂, (collidePass1 700 ⟨50, 50, 0, -5, false⟩ 0 1
        [⟨0, 0, 7, .pickup, false⟩] ).blocks =
        p₁ ++ ({ col := 0, row := 0, strength := 7, type := .pickup,
                  destroyed := true } : Block) :: p₂ ∧ p₁.length = 0) ∧
    ({ col := 0, row := 0, strength := 7, type := .pickup,
        destroyed := true } : Block) ∉
      (handleCollisions1 700 ⟨50, 50, 0, -5, false⟩ 0 1
        [⟨0, 0, 7, .pickup, false⟩] ).blocks := by
  have hhit : circleRectCollision (50 : ℚ) 50
      (Block.rectOf 700 ⟨0, 0, 7, .pickup, false⟩) = true := by
    unfold circleRectCollision Block.rectOf clamp distSq BALL_RADIUS GRID_COLUMNS
    norm_num
  have hph : pickupHit 700 (50 : ℚ) 50 (⟨0, 0, 7, .pickup, false⟩ : Block) = true := by
    unfold pickupHit blockHit
    simp [hhit]
  have h := claim_C5 700 ⟨50, 50, 0, -5, false⟩ 0 1 [⟨0, 0, 7, .pickup, false⟩]
  have hflt : ([(⟨0, 0, 7, .pickup, false⟩ : Block)].filter
      (pickupHit 700 (50 : ℚ) 50)).length = 1 := by
    rw [List.filter_cons_of_pos hph]
    rfl
  have hflt2 : ([(⟨0, 0, 7, .pickup, false⟩ : Block)].filter
      (stdHit 700 (50 : ℚ) 50)).length = 0 := by
    rw [List.filter_cons_of_neg]
    · rfl
    · unfold stdHit
      simp
  refine ⟨?_, ?_, ?_, ?_⟩
  · have := h.1
    simp only [hflt] at this
    exact this
  · have := h.2.1
    simp only [hflt, hflt2] at this
    exact this
  · have := h.2.2.2.1 [] (⟨0, 0, 7, .pickup, false⟩ : Block) [] rfl hph
    simpa using this
  · exact h.2.2.2.2.2 _ rfl

/-! ## Variant 2: game session (floating barriers, turn state machine)

The second copy of the script replaces grid-block collisions by floating
`BarrierBlock`s with a population cap, gives balls explicit
`prevX/prevY`, and drops `stepRowsDown`/`spawnRow` from `finishTurn`.
`GAME_WIDTH`/`GAME_HEIGHT` come from the canvas and `Math.cos`/`Math.sin`
are transcendental, so they are parameters (`Cfg`); the simulation logic
never inspects their values.  Particles, sounds and HUD writes are
cosmetic sinks and are not part of the state. -/

/-- Runtime parameters of the second variant. -/
structure Cfg where
  W : ℚ
  H : ℚ
  cosF : ℚ → ℚ
  sinF : ℚ → ℚ

def BALL_SPEED : ℚ := 620

def MAX_FLOATING_BLOCKS : Nat := 24

/-- Variant-2 ball (`class Ball`), with `prevX`/`prevY` fields. -/
structure BallV2 where
  x : ℚ
  y : ℚ
  vx : ℚ
  vy : ℚ
  resting : Bool
  prevX : ℚ
  prevY : ℚ
deriving DecidableEq, Repr

/-- `new Ball(x, y, angle)`: velocity from the aim angle, `prevX/prevY`
initialised to the spawn position. -/
def BallV2.new (cfg : Cfg) (x y angle : ℚ) : BallV2 :=
  ⟨x, y, cfg.cosF angle * BALL_SPEED, cfg.sinF angle * BALL_SPEED, false, x, y⟩

/-- `Ball.update(delta)`: Euler integration, wall reflection left/right,
then top. -/
def BallV2.update (cfg : Cfg) (delta : ℚ) (b : BallV2) : BallV2 :=
  if b.resting then b
  else
    let b1 := { b with prevX := b.x, prevY := b.y,
                       x := b.x + b.vx * delta, y := b.y + b.vy * delta }
    let b2 :=
      if b1.x - BALL_RADIUS ≤ 0 ∧ b1.vx < 0 then
        { b1 with x := BALL_RADIUS, vx := -b1.vx }
      else if cfg.W ≤ b1.x + BALL_RADIUS ∧ 0 < b1.vx then
        { b1 with x := cfg.W - BALL_RADIUS, vx := -b1.vx }
      else b1
    if b2.y - BALL_RADIUS ≤ 0 ∧ b2.vy < 0 then
      { b2 with y := BALL_RADIUS, vy := -b2.vy }
    else b2

/-- `Ball.setResting(baseY)`. -/
def BallV2.setResting (baseY : ℚ) (b : BallV2) : BallV2 :=
  { b with y := baseY - BALL_RADIUS, vx := 0, vy := 0, resting := true }

/-- Floating barrier (`class BarrierBlock`): center position, size,
strength; `destroyed` starts `false`. -/
structure BarrierBlock where
  x : ℚ
  y : ℚ
  size : ℚ
  strength : ℤ
  destroyed : Bool
deriving DecidableEq, Repr

/-- `get rect()`: square centered at `(x, y)`. -/
def BarrierBlock.rect (b : BarrierBlock) : Rect :=
  ⟨b.x - b.size / 2, b.y - b.size / 2, b.size, b.size⟩

/-- The variant-2 `Game` session state (simulation-relevant fields;
`blocks` exists but variant 2 never spawns into or collides with it). -/
structure GameState where
  rngState : Nat
  blocks : List Block
  balls : List BallV2
  barrierBlocks : List BarrierBlock
  pendingBalls : Nat
  ballChain : Nat
  baseBallPosition : ℚ
  baseY : ℚ
  turnAngle : Option ℚ
  isAiming : Bool
  isLaunching : Bool
  isGameOver : Bool
  turn : Nat
  score : Nat
  launchTimer : ℚ
  restingBalls : List BallV2
  activeBallChainLanding : Option ℚ

/-- One `createCandidate()` closure call inside `spawnFloatingBlock`
(three RNG draws: x, y, strength). -/
def createCandidate (cfg : Cfg) (turn s : Nat) : BarrierBlock × Nat :=
  let size := cfg.W / (GRID_COLUMNS : ℚ) * (9/10)
  let padding := size / 2 + 12
  let maxY := cfg.H * (6/10)
  let strengthBase := turn + 2
  let s1 := xorshift32 s
  let x := padding + outOf s1 * (cfg.W - padding * 2)
  let s2 := xorshift32 s1
  let y := padding + outOf s2 * (maxY - padding) + 32
  let s3 := xorshift32 s2
  let strength := max 2 (jsRound ((strengthBase : ℚ) * (6/10 + outOf s3)))
  (⟨x, y, size, strength, false⟩, s3)

/-- `isBarrierOverlapping(candidate)`: squared-distance test against
`size + 24` for every existing barrier. -/
def isBarrierOverlapping (barriers : List BarrierBlock) (candidate : BarrierBlock) : Bool :=
  barriers.any (fun barrier =>
    decide ((barrier.x - candidate.x) * (barrier.x - candidate.x) +
      (barrier.y - candidate.y) * (barrier.y - candidate.y) <
        (candidate.size + 24) * (candidate.size + 24)))

/-- The bounded retry loop of `spawnFloatingBlock` (`attempts = 18`):
check the current candidate, redraw while overlapping, and accept the
last candidate unchecked when the attempts are exhausted. -/
def pickCandidate (cfg : Cfg) (turn : Nat) (barriers : List BarrierBlock) :
    Nat → BarrierBlock → Nat → BarrierBlock × Nat
  | 0, c, s => (c, s)
  | attempts + 1, c, s =>
    if isBarrierOverlapping barriers c then
      let r := createCandidate cfg turn s
      pickCandidate cfg turn barriers attempts r.1 r.2
    else (c, s)

/-- `Game.spawnFloatingBlock({ force })`:
```js
spawnFloatingBlock({ force = false } = {}) {
  if (this.isGameOver) return;
  ... createCandidate / retry loop ...
  if (!force && this.barrierBlocks.length >= MAX_FLOATING_BLOCKS) return;
  if (force && this.barrierBlocks.length >= MAX_FLOATING_BLOCKS) this.barrierBlocks.shift();
  this.barrierBlocks.push(candidate);
}
``` -/
def spawnFloatingBlock (cfg : Cfg) (force : Bool) (g : GameState) : GameState :=
  if g.isGameOver then g
  else
    let c0 := createCandidate cfg g.turn g.rngState
    let picked := pickCandidate cfg g.turn g.barrierBlocks 18 c0.1 c0.2
    if force = false ∧ MAX_FLOATING_BLOCKS ≤ g.barrierBlocks.length then
      { g with rngState := picked.2 }
    else
      let barriers1 :=
        if force = true ∧ MAX_FLOATING_BLOCKS ≤ g.barrierBlocks.length then
          g.barrierBlocks.tail
        else g.barrierBlocks
      { g with rngState := picked.2, barrierBlocks := barriers1 ++ [picked.1] }

/-- `Game.seedFloatingBlocks()`: six forced spawns at reset. -/
def seedFloatingBlocks (cfg : Cfg) (g : GameState) : GameState :=
  (spawnFloatingBlock cfg true)^[6] g

/-- Variant 2's `handleCollisions(ball)` loop body, following the JS
array-iterator semantics: the internal index `k` advances by one per
iteration over the live `barrierBlocks` array, which the nested
`spawnFloatingBlock({force:true})` may shift/push mid-loop.  The fuel
bounds the number of iterations; `2·length + 2` is safe: every iteration
moves `k` forward, and each push is paired with either a shift (at the
cap) or the destruction of a pre-existing barrier, while pushed
candidates (strength `max(2, …) ≥ 2`) cannot be destroyed by the single
visit they can receive. -/
def collideLoop (cfg : Cfg) : Nat → Nat → BallV2 → GameState → BallV2 × GameState
  | 0, _, ball, g => (ball, g)
  | fuel + 1, k, ball, g =>
    match g.barrierBlocks[k]? with
    | none => (ball, g)
    | some barrier =>
      if barrier.destroyed then collideLoop cfg fuel (k + 1) ball g
      else if circleRectCollision ball.x ball.y barrier.rect then
        let rect := barrier.rect
        let isHorizontal : Prop :=
          ball.prevY + BALL_RADIUS ≤ rect.y ∨ rect.y + rect.h ≤ ball.prevY - BALL_RADIUS
        let barrier' := { barrier with strength := barrier.strength - 1 }
        let g1 := { g with barrierBlocks := g.barrierBlocks.set k barrier',
                           score := g.score + 8 }
        let g2 :=
          if barrier'.strength ≤ 0 then
            spawnFloatingBlock cfg true
              { g1 with barrierBlocks :=
                  g1.barrierBlocks.set k { barrier' with destroyed := true } }
          else g1
        let ball' :=
          if isHorizontal then { ball with vy := -ball.vy }
          else { ball with vx := -ball.vx }
        collideLoop cfg fuel (k + 1) ball' g2
      else collideLoop cfg fuel (k + 1) ball g

/-- Variant 2's `Game.handleCollisions(ball)`: the loop, then
`this.barrierBlocks = this.barrierBlocks.filter((barrier) => !barrier.destroyed)`. -/
def handleCollisions2 (cfg : Cfg) (ball : BallV2) (g : GameState) : BallV2 × GameState :=
  let r := collideLoop cfg (2 * g.barrierBlocks.length + 2) 0 ball g
  (r.1, { r.2 with barrierBlocks := r.2.barrierBlocks.filter (fun b => !b.destroyed) })

/-- The launch-sequencer prefix of variant 2's `update`:
```js
if (this.isLaunching) {
  this.launchTimer -= delta;
  if (this.pendingBalls > 0 && this.launchTimer <= 0) {
    this.launchTimer = 0.1;
    this.pendingBalls--;
    const spawnPointX = this.activeBallChainLanding ?? this.baseBallPosition;
    const ball = new Ball(spawnPointX, this.baseY - BALL_RADIUS, this.turnAngle);
    this.balls.push(ball);
    this.spawnFloatingBlock();
  }
}
```
(A null `turnAngle` would be coerced to 0 by JS `Math.cos(null)`,
matching `Option.getD _ 0`; during launching the angle is always set.) -/
def spawnPhase (cfg : Cfg) (delta : ℚ) (g : GameState) : GameState :=
  if g.isLaunching then
    let t := g.launchTimer - delta
    if 0 < g.pendingBalls ∧ t ≤ 0 then
      let spawnPointX := g.activeBallChainLanding.getD g.baseBallPosition
      let ball := BallV2.new cfg spawnPointX (g.baseY - BALL_RADIUS) (g.turnAngle.getD 0)
      spawnFloatingBlock cfg false
        { g with launchTimer := 1/10, pendingBalls := g.pendingBalls - 1,
                 balls := g.balls ++ [ball] }
    else { g with launchTimer := t }
  else g

/-- One `for (const ball of this.balls)` body iteration of variant 2's
`update`: skip resting balls, otherwise physics step, collision pass,
rest detection (recording the first landing x into
`activeBallChainLanding` only when it is still null, and pushing onto
`restingBalls`). -/
def ballStep (cfg : Cfg) (d : ℚ) (b : BallV2) (g : GameState) : BallV2 × GameState :=
  if b.resting then (b, g)
  else
    let b1 := BallV2.update cfg d b
    let r := handleCollisions2 cfg b1 g
    if r.2.baseY ≤ r.1.y + BALL_RADIUS ∧ 0 < r.1.vy then
      let b3 := BallV2.setResting r.2.baseY r.1
      let landing :=
        match r.2.activeBallChainLanding with
        | some v => some v
        | none => some b3.x
      (b3, { r.2 with restingBalls := r.2.restingBalls ++ [b3],
                      activeBallChainLanding := landing })
    else (r.1, r.2)

/-- The ball loop, rebuilding the ball list in place. -/
def ballsPassGo (cfg : Cfg) (d : ℚ) :
    List BallV2 → List BallV2 → GameState → GameState
  | [], acc, g => { g with balls := acc }
  | b :: rest, acc, g =>
    let r := ballStep cfg d b g
    ballsPassGo cfg d rest (acc ++ [r.1]) r.2

def ballsPass (cfg : Cfg) (delta : ℚ) (g : GameState) : GameState :=
  ballsPassGo cfg delta g.balls [] g

/-- Variant 2's `Game.finishTurn()` — note: **unguarded**; the only
call site is the guarded check at the end of `update`. -/
def finishTurn (g : GameState) : GameState :=
  { g with isLaunching := false, isAiming := false, turnAngle := none,
           turn := g.turn + 1, balls := [],
           baseBallPosition := g.activeBallChainLanding.getD g.baseBallPosition }

/-- The guarded finish-turn transition at the end of `update`:
`if (this.isLaunching && this.pendingBalls === 0 && this.balls.every((b) => b.resting)) { this.finishTurn(); }`. -/
def tryFinishTurn (g : GameState) : GameState :=
  if g.isLaunching = true ∧ g.pendingBalls = 0 ∧ g.balls.all (·.resting) = true
  then finishTurn g else g

/-- The body of variant 2's `Game.update(delta)` before the finish-turn
check (particle bookkeeping is cosmetic and not modelled). -/
def preUpdate (cfg : Cfg) (delta : ℚ) (g : GameState) : GameState :=
  ballsPass cfg delta (spawnPhase cfg delta g)

/-- Variant 2's `Game.update(delta)`. -/
def update (cfg : Cfg) (delta : ℚ) (g : GameState) : GameState :=
  if g.isGameOver then g else tryFinishTurn (preUpdate cfg delta g)

/-- `Game.launchTurn(angle)`. -/
def launchTurn (angle : ℚ) (g : GameState) : GameState :=
  { g with isLaunching := true, turnAngle := some angle,
           pendingBalls := g.ballChain, launchTimer := 0,
           restingBalls := [], activeBallChainLanding := none }

/-- A sequence of `update` ticks. -/
def trace (cfg : Cfg) : GameState → List ℚ → GameState
  | g, [] => g
  | g, d :: ds => trace cfg (update cfg d g) ds

/-! ### Field-preservation lemmas for the variant-2 operations -/

/-- `g'` agrees with `g` on every field except possibly `rngState`,
`barrierBlocks` and `score` (the fields the collision pass may touch). -/
def SameCore (g g' : GameState) : Prop :=
  g'.balls = g.balls ∧ g'.pendingBalls = g.pendingBalls ∧ g'.ballChain = g.ballChain ∧
  g'.baseBallPosition = g.baseBallPosition ∧ g'.baseY = g.baseY ∧
  g'.turnAngle = g.turnAngle ∧ g'.isAiming = g.isAiming ∧
  g'.isLaunching = g.isLaunching ∧ g'.isGameOver = g.isGameOver ∧
  g'.turn = g.turn ∧ g'.launchTimer = g.launchTimer ∧
  g'.restingBalls = g.restingBalls ∧ g'.activeBallChainLanding = g.activeBallChainLanding

theorem SameCore.core_refl (g : GameState) : SameCore g g :=
  ⟨rfl, rfl, rfl, rfl, rfl, rfl, rfl, rfl, rfl, rfl, rfl, rfl, rfl⟩

theorem SameCore.core_trans {g₁ g₂ g₃ : GameState}
    (h₁ : SameCore g₁ g₂) (h₂ : SameCore g₂ g₃) : SameCore g₁ g₃ := by
  unfold SameCore at *
  refine ⟨?_, ?_, ?_, ?_, ?_, ?_, ?_, ?_, ?_, ?_, ?_, ?_, ?_⟩ <;>
    simp only [h₂.1, h₂.2.1, h₂.2.2.1, h₂.2.2.2.1, h₂.2.2.2.2.1, h₂.2.2.2.2.2.1,
      h₂.2.2.2.2.2.2.1, h₂.2.2.2.2.2.2.2.1, h₂.2.2.2.2.2.2.2.2.1,
      h₂.2.2.2.2.2.2.2.2.2.1, h₂.2.2.2.2.2.2.2.2.2.2.1,
      h₂.2.2.2.2.2.2.2.2.2.2.2.1, h₂.2.2.2.2.2.2.2.2.2.2.2.2,
      h₁.1, h₁.2.1, h₁.2.2.1, h₁.2.2.2.1, h₁.2.2.2.2.1, h₁.2.2.2.2.2.1,
      h₁.2.2.2.2.2.2.1, h₁.2.2.2.2.2.2.2.1, h₁.2.2.2.2.2.2.2.2.1,
      h₁.2.2.2.2.2.2.2.2.2.1, h₁.2.2.2.2.2.2.2.2.2.2.1,
      h₁.2.2.2.2.2.2.2.2.2.2.2.1, h₁.2.2.2.2.2.2.2.2.2.2.2.2]

theorem spawnFloatingBlock_core (cfg : Cfg) (force : Bool) (g : GameState) :
    SameCore g (spawnFloatingBlock cfg force g) := by
  unfold spawnFloatingBlock SameCore
  split_ifs <;> simp

theorem spawnFloatingBlock_score (cfg : Cfg) (force : Bool) (g : GameState) :
    (spawnFloatingBlock cfg force g).score = g.score := by
  unfold spawnFloatingBlock
  split_ifs <;> simp

theorem collideLoop_core (cfg : Cfg) :
    ∀ (fuel k : Nat) (ball : BallV2) (g : GameState),
      SameCore g (collideLoop cfg fuel k ball g).2 := by
  intro fuel
  induction fuel with
  | zero => intro k ball g; exact SameCore.core_refl g
  | succ fuel ih =>
    intro k ball g
    unfold collideLoop
    cases hk : g.barrierBlocks[k]? with
    | none => exact SameCore.core_refl g
    | some barrier =>
      simp only
      by_cases hd : barrier.destroyed
      · simp only [hd, if_true]
        exact ih (k + 1) ball g
      · simp only [hd, if_false]
        by_cases hc : circleRectCollision ball.x ball.y barrier.rect
        · simp only [hc, if_true]
          by_cases hs : barrier.strength - 1 ≤ 0
          · simp only [hs, if_true]
            refine SameCore.core_trans ?_ (ih _ _ _)
            refine SameCore.core_trans ?_ (spawnFloatingBlock_core cfg true _)
            unfold SameCore
            simp
          · simp only [hs, if_false]
            refine SameCore.core_trans ?_ (ih _ _ _)
            unfold SameCore
            simp
        · simp only [hc, if_false]
          exact ih (k + 1) ball g

theorem handleCollisions2_core (cfg : Cfg) (ball : BallV2) (g : GameState) :
    SameCore g (handleCollisions2 cfg ball g).2 := by
  unfold handleCollisions2
  refine SameCore.core_trans
    (collideLoop_core cfg (2 * g.barrierBlocks.length + 2) 0 ball g) ?_
  unfold SameCore
  simp

/-- `g'` agrees with `g` on the turn-sequencing fields (those the ball
loop never touches). -/
def SameTurn (g g' : GameState) : Prop :=
  g'.pendingBalls = g.pendingBalls ∧ g'.launchTimer = g.launchTimer ∧
  g'.isLaunching = g.isLaunching ∧ g'.isGameOver = g.isGameOver ∧
  g'.turn = g.turn ∧ g'.baseY = g.baseY ∧ g'.ballChain = g.ballChain ∧
  g'.turnAngle = g.turnAngle ∧ g'.baseBallPosition = g.baseBallPosition ∧
  g'.isAiming = g.isAiming

theorem SameTurn.turn_refl (g : GameState) : SameTurn g g :=
  ⟨Eq.refl _, Eq.refl _, Eq.refl _, Eq.refl _, Eq.refl _, Eq.refl _, Eq.refl _,
    Eq.refl _, Eq.refl _, Eq.refl _⟩

theorem SameTurn.turn_trans {g₁ g₂ g₃ : GameState}
    (h₁ : SameTurn g₁ g₂) (h₂ : SameTurn g₂ g₃) : SameTurn g₁ g₃ := by
  unfold SameTurn at *
  exact ⟨h₂.1.trans h₁.1, h₂.2.1.trans h₁.2.1, h₂.2.2.1.trans h₁.2.2.1,
    h₂.2.2.2.1.trans h₁.2.2.2.1, h₂.2.2.2.2.1.trans h₁.2.2.2.2.1,
    h₂.2.2.2.2.2.1.trans h₁.2.2.2.2.2.1, h₂.2.2.2.2.2.2.1.trans h₁.2.2.2.2.2.2.1,
    h₂.2.2.2.2.2.2.2.1.trans h₁.2.2.2.2.2.2.2.1,
    h₂.2.2.2.2.2.2.2.2.1.trans h₁.2.2.2.2.2.2.2.2.1,
    h₂.2.2.2.2.2.2.2.2.2.trans h₁.2.2.2.2.2.2.2.2.2⟩

theorem SameCore.toSameTurn {g g' : GameState} (h : SameCore g g') : SameTurn g g' :=
  ⟨h.2.1, h.2.2.2.2.2.2.2.2.2.2.1, h.2.2.2.2.2.2.2.1, h.2.2.2.2.2.2.2.2.1,
    h.2.2.2.2.2.2.2.2.2.1, h.2.2.2.2.1, h.2.2.1, h.2.2.2.2.2.1,
    h.2.2.2.1, h.2.2.2.2.2.2.1⟩

theorem ballStep_spec (cfg : Cfg) (d : ℚ) (b : BallV2) (g : GameState) :
    SameTurn g (ballStep cfg d b g).2 ∧
    ∃ ext, (ballStep cfg d b g).2.restingBalls = g.restingBalls ++ ext ∧
      (∀ v, g.activeBallChainLanding = some v →
        (ballStep cfg d b g).2.activeBallChainLanding = some v) ∧
      (g.activeBallChainLanding = none →
        (ballStep cfg d b g).2.activeBallChainLanding =
          ext.head?.map (fun x => x.x)) := by
  unfold ballStep
  by_cases hb : b.resting
  · simp only [hb, if_true]
    exact ⟨SameTurn.turn_refl g, [], by simp, fun v h => h, fun h => by simp [h]⟩
  · simp only [hb, Bool.false_eq_true, if_false]
    have hcore := handleCollisions2_core cfg (BallV2.update cfg d b) g
    by_cases hcond : (handleCollisions2 cfg (BallV2.update cfg d b) g).2.baseY ≤
        (handleCollisions2 cfg (BallV2.update cfg d b) g).1.y + BALL_RADIUS ∧
        0 < (handleCollisions2 cfg (BallV2.update cfg d b) g).1.vy
    · simp only [hcond, if_true]
      constructor
      · refine SameTurn.turn_trans hcore.toSameTurn ?_
        exact ⟨Eq.refl _, Eq.refl _, Eq.refl _, Eq.refl _, Eq.refl _, Eq.refl _,
          Eq.refl _, Eq.refl _, Eq.refl _, Eq.refl _⟩
      · refine ⟨[BallV2.setResting
            (handleCollisions2 cfg (BallV2.update cfg d b) g).2.baseY
            (handleCollisions2 cfg (BallV2.update cfg d b) g).1], ?_, ?_, ?_⟩
        · show (handleCollisions2 cfg (BallV2.update cfg d b) g).2.restingBalls ++ _ = _
          rw [hcore.2.2.2.2.2.2.2.2.2.2.2.1]
        · intro v hv
          show (match (handleCollisions2 cfg (BallV2.update cfg d b) g).2.activeBallChainLanding with
            | some w => some w
            | none => some (BallV2.setResting
                (handleCollisions2 cfg (BallV2.update cfg d b) g).2.baseY
                (handleCollisions2 cfg (BallV2.update cfg d b) g).1).x) = some v
          rw [hcore.2.2.2.2.2.2.2.2.2.2.2.2, hv]
        · intro hnone
          show (match (handleCollisions2 cfg (BallV2.update cfg d b) g).2.activeBallChainLanding with
            | some w => some w
            | none => some (BallV2.setResting
                (handleCollisions2 cfg (BallV2.update cfg d b) g).2.baseY
                (handleCollisions2 cfg (BallV2.update cfg d b) g).1).x) = _
          rw [hcore.2.2.2.2.2.2.2.2.2.2.2.2, hnone]
          rfl
    · simp only [hcond, if_false]
      exact ⟨hcore.toSameTurn, [], by simp [hcore.2.2.2.2.2.2.2.2.2.2.2.1],
        fun v h => by rw [hcore.2.2.2.2.2.2.2.2.2.2.2.2]; exact h,
        fun h => by rw [hcore.2.2.2.2.2.2.2.2.2.2.2.2, h]; rfl⟩

theorem ballsPassGo_spec (cfg : Cfg) (d : ℚ) :
    ∀ (l acc : List BallV2) (g : GameState),
      SameTurn g (ballsPassGo cfg d l acc g) ∧
      (ballsPassGo cfg d l acc g).balls.length = acc.length + l.length ∧
      ∃ ext, (ballsPassGo cfg d l acc g).restingBalls = g.restingBalls ++ ext ∧
        (∀ v, g.activeBallChainLanding = some v →
          (ballsPassGo cfg d l acc g).activeBallChainLanding = some v) ∧
        (g.activeBallChainLanding = none →
          (ballsPassGo cfg d l acc g).activeBallChainLanding =
            ext.head?.map (fun x => x.x)) := by
  intro l
  induction l with
  | nil =>
    intro acc g
    refine ⟨⟨Eq.refl _, Eq.refl _, Eq.refl _, Eq.refl _, Eq.refl _, Eq.refl _,
      Eq.refl _, Eq.refl _, Eq.refl _, Eq.refl _⟩, by simp [ballsPassGo], [],
      by simp [ballsPassGo], fun v h => h, fun h => by simp [ballsPassGo, h]⟩
  | cons b rest ih =>
    intro acc g
    have hstep := ballStep_spec cfg d b g
    obtain ⟨hturn1, ext1, hrb1, hsome1, hnone1⟩ := hstep
    have hrec := ih (acc ++ [(ballStep cfg d b g).1]) (ballStep cfg d b g).2
    obtain ⟨hturn2, hlen2, ext2, hrb2, hsome2, hnone2⟩ := hrec
    have hgo : ballsPassGo cfg d (b :: rest) acc g =
        ballsPassGo cfg d rest (acc ++ [(ballStep cfg d b g).1]) (ballStep cfg d b g).2 := rfl
    rw [hgo]
    refine ⟨SameTurn.turn_trans hturn1 hturn2, ?_, ext1 ++ ext2, ?_, ?_, ?_⟩
    · rw [hlen2]
      simp
      omega
    · rw [hrb2, hrb1, List.append_assoc]
    · intro v hv
      exact hsome2 v (hsome1 v hv)
    · intro hnone
      cases ext1 with
      | nil =>
        have h1 : (ballStep cfg d b g).2.activeBallChainLanding = none := by
          simpa using hnone1 hnone
        simpa using hnone2 h1
      | cons e es =>
        have h1 : (ballStep cfg d b g).2.activeBallChainLanding = some e.x := by
          simpa using hnone1 hnone
        simpa using hsome2 e.x h1

theorem spawnPhase_idle (cfg : Cfg) (d : ℚ) (g : GameState)
    (h : g.isLaunching = false) : spawnPhase cfg d g = g := by
  simp [spawnPhase, h]

theorem spawnPhase_spawn (cfg : Cfg) (d : ℚ) (g : GameState)
    (hL : g.isLaunching = true) (hP : 0 < g.pendingBalls)
    (hT : g.launchTimer - d ≤ 0) :
    spawnPhase cfg d g = spawnFloatingBlock cfg false
      { g with launchTimer := 1/10, pendingBalls := g.pendingBalls - 1,
               balls := g.balls ++
                 [BallV2.new cfg (g.activeBallChainLanding.getD g.baseBallPosition)
                   (g.baseY - BALL_RADIUS) (g.turnAngle.getD 0)] } := by
  simp [spawnPhase, hL, hP, hT]

theorem spawnPhase_tick (cfg : Cfg) (d : ℚ) (g : GameState)
    (hL : g.isLaunching = true)
    (h : ¬ (0 < g.pendingBalls ∧ g.launchTimer - d ≤ 0)) :
    spawnPhase cfg d g = { g with launchTimer := g.launchTimer - d } := by
  simp only [spawnPhase, hL, if_true]
  rw [if_neg h]

theorem spawnPhase_keep (cfg : Cfg) (d : ℚ) (g : GameState) :
    (spawnPhase cfg d g).isLaunching = g.isLaunching ∧
    (spawnPhase cfg d g).isGameOver = g.isGameOver ∧
    (spawnPhase cfg d g).turn = g.turn ∧
    (spawnPhase cfg d g).restingBalls = g.restingBalls ∧
    (spawnPhase cfg d g).activeBallChainLanding = g.activeBallChainLanding ∧
    (spawnPhase cfg d g).ballChain = g.ballChain ∧
    (spawnPhase cfg d g).baseY = g.baseY ∧
    (spawnPhase cfg d g).turnAngle = g.turnAngle ∧
    (spawnPhase cfg d g).baseBallPosition = g.baseBallPosition := by
  by_cases hL : g.isLaunching = true
  · by_cases hC : 0 < g.pendingBalls ∧ g.launchTimer - d ≤ 0
    · rw [spawnPhase_spawn cfg d g hL hC.1 hC.2]
      have hcore := spawnFloatingBlock_core cfg false
        { g with launchTimer := 1/10, pendingBalls := g.pendingBalls - 1,
                 balls := g.balls ++
                   [BallV2.new cfg (g.activeBallChainLanding.getD g.baseBallPosition)
                     (g.baseY - BALL_RADIUS) (g.turnAngle.getD 0)] }
      exact ⟨hcore.2.2.2.2.2.2.2.1, hcore.2.2.2.2.2.2.2.2.1, hcore.2.2.2.2.2.2.2.2.2.1,
        hcore.2.2.2.2.2.2.2.2.2.2.2.1, hcore.2.2.2.2.2.2.2.2.2.2.2.2,
        hcore.2.2.1, hcore.2.2.2.2.1, hcore.2.2.2.2.2.1, hcore.2.2.2.1⟩
    · rw [spawnPhase_tick cfg d g hL hC]
      exact ⟨rfl, rfl, rfl, rfl, rfl, rfl, rfl, rfl, rfl⟩
  · rw [spawnPhase_idle cfg d g (by simpa using hL)]
    exact ⟨rfl, rfl, rfl, rfl, rfl, rfl, rfl, rfl, rfl⟩

theorem spawnPhase_pending_balls (cfg : Cfg) (d : ℚ) (g : GameState) :
    (g.isLaunching = true → 0 < g.pendingBalls → g.launchTimer - d ≤ 0 →
      (spawnPhase cfg d g).pendingBalls = g.pendingBalls - 1 ∧
      (spawnPhase cfg d g).launchTimer = 1/10 ∧
      (spawnPhase cfg d g).balls.length = g.balls.length + 1) ∧
    (g.isLaunching = true → ¬ (0 < g.pendingBalls ∧ g.launchTimer - d ≤ 0) →
      (spawnPhase cfg d g).pendingBalls = g.pendingBalls ∧
      (spawnPhase cfg d g).launchTimer = g.launchTimer - d ∧
      (spawnPhase cfg d g).balls = g.balls) ∧
    (g.isLaunching = false →
      spawnPhase cfg d g = g) := by
  refine ⟨?_, ?_, spawnPhase_idle cfg d g⟩
  · intro hL hP hT
    rw [spawnPhase_spawn cfg d g hL hP hT]
    have hcore := spawnFloatingBlock_core cfg false
      { g with launchTimer := 1/10, pendingBalls := g.pendingBalls - 1,
               balls := g.balls ++
                 [BallV2.new cfg (g.activeBallChainLanding.getD g.baseBallPosition)
                   (g.baseY - BALL_RADIUS) (g.turnAngle.getD 0)] }
    refine ⟨hcore.2.1, hcore.2.2.2.2.2.2.2.2.2.2.1, ?_⟩
    rw [hcore.1]
    simp
  · intro hL hC
    rw [spawnPhase_tick cfg d g hL hC]
    exact ⟨rfl, rfl, rfl⟩

theorem finishTurn_fields (g : GameState) :
    (finishTurn g).isLaunching = false ∧ (finishTurn g).turn = g.turn + 1 ∧
    (finishTurn g).balls = [] ∧
    (finishTurn g).baseBallPosition = g.activeBallChainLanding.getD g.baseBallPosition ∧
    (finishTurn g).pendingBalls = g.pendingBalls ∧
    (finishTurn g).launchTimer = g.launchTimer ∧
    (finishTurn g).isGameOver = g.isGameOver ∧
    (finishTurn g).activeBallChainLanding = g.activeBallChainLanding ∧
    (finishTurn g).restingBalls = g.restingBalls ∧
    (finishTurn g).ballChain = g.ballChain ∧
    (finishTurn g).baseY = g.baseY :=
  ⟨rfl, rfl, rfl, rfl, rfl, rfl, rfl, rfl, rfl, rfl, rfl⟩

theorem tryFinishTurn_cases (g : GameState) :
    (¬ (g.isLaunching = true ∧ g.pendingBalls = 0 ∧ g.balls.all (·.resting) = true) →
      tryFinishTurn g = g) ∧
    ((g.isLaunching = true ∧ g.pendingBalls = 0 ∧ g.balls.all (·.resting) = true) →
      tryFinishTurn g = finishTurn g) := by
  unfold tryFinishTurn
  constructor
  · intro h
    rw [if_neg h]
  · intro h
    rw [if_pos h]

theorem tryFinishTurn_keep (g : GameState) :
    (tryFinishTurn g).pendingBalls = g.pendingBalls ∧
    (tryFinishTurn g).launchTimer = g.launchTimer ∧
    (tryFinishTurn g).isGameOver = g.isGameOver ∧
    (tryFinishTurn g).activeBallChainLanding = g.activeBallChainLanding ∧
    (tryFinishTurn g).restingBalls = g.restingBalls ∧
    (tryFinishTurn g).ballChain = g.ballChain ∧
    (tryFinishTurn g).baseY = g.baseY := by
  unfold tryFinishTurn
  split_ifs <;> exact ⟨rfl, rfl, rfl, rfl, rfl, rfl, rfl⟩

theorem update_gameOver_frozen (cfg : Cfg) (d : ℚ) (g : GameState)
    (h : g.isGameOver = true) : update cfg d g = g := by
  simp [update, h]

theorem update_gameOver_eq (cfg : Cfg) (d : ℚ) (g : GameState) :
    (update cfg d g).isGameOver = g.isGameOver := by
  unfold update
  by_cases h : g.isGameOver = true
  · rw [if_pos (by simpa using h)]
  · rw [if_neg (by simpa using h)]
    rw [tryFinishTurn_keep _ |>.2.2.1]
    unfold preUpdate ballsPass
    rw [(ballsPassGo_spec cfg d _ [] _).1.2.2.2.1, (spawnPhase_keep cfg d g).2.1]

theorem update_landing_mono (cfg : Cfg) (d : ℚ) (g : GameState) (v : ℚ)
    (h : g.activeBallChainLanding = some v) :
    (update cfg d g).activeBallChainLanding = some v := by
  unfold update
  by_cases hg : g.isGameOver = true
  · rw [if_pos (by simpa using hg)]
    exact h
  · rw [if_neg (by simpa using hg)]
    rw [tryFinishTurn_keep _ |>.2.2.2.1]
    unfold preUpdate ballsPass
    refine ((ballsPassGo_spec cfg d _ [] _).2.2).choose_spec.2.1 v ?_
    rw [(spawnPhase_keep cfg d g).2.2.2.2.1]
    exact h

/-! ### Concrete states for counterexamples and witnesses -/

/-- A concrete parameter set (`Math.cos`/`Math.sin` instantiated by stub
functions; the claims below hold for every interpretation). -/
def cfg0 : Cfg := ⟨700, 1000, fun _ => 1, fun _ => 0⟩

/-- A concrete idle session (`isLaunching = false`, turn 1). -/
def idleState : GameState :=
  { rngState := 1, blocks := [], balls := [], barrierBlocks := [],
    pendingBalls := 0, ballChain := 1, baseBallPosition := 350, baseY := 976,
    turnAngle := none, isAiming := false, isLaunching := false,
    isGameOver := false, turn := 1, score := 0, launchTimer := 0,
    restingBalls := [], activeBallChainLanding := none }

/-- **C4 (counterexample).**  `finishTurn` itself has no idempotence
guard: invoked on a concrete idle session it increments the turn number
(1 → 2) and so is not a no-op. -/
theorem claim_C4_counterexample :
    idleState.isLaunching = false ∧ idleState.turn = 1 ∧
      (finishTurn idleState).turn = 2 ∧ finishTurn idleState ≠ idleState :=
  ⟨rfl, rfl, rfl, fun h => absurd (congrArg GameState.turn h) (by decide)⟩

/-- **C4 (amended).**  The finish-turn transition *as the game can ever
invoke it* — the guarded check at the end of `update` — is a no-op when
the session is not launching: the whole state, in particular the turn
number, is unchanged.  (The raw `finishTurn` method is unguarded and
would increment the turn; it is unreachable when idle.) -/
theorem claim_C4_amended (g : GameState) (h : g.isLaunching = false) :
    tryFinishTurn g = g := by
  apply (tryFinishTurn_cases g).1
  intro hc
  rw [h] at hc
  exact absurd hc.1 (by decide)

/-- **C4 (witness).** -/
theorem claim_C4_witness : tryFinishTurn idleState = idleState :=
  claim_C4_amended idleState rfl

/-! ### C8: the floating-barrier population cap -/

def bbA : BarrierBlock := ⟨100, 100, 90, 2, false⟩

def bbB : BarrierBlock := ⟨300, 100, 90, 3, false⟩

/-- A game-over session holding exactly `MAX_FLOATING_BLOCKS` barriers,
with a distinguishable front element. -/
def cappedOverState : GameState :=
  { idleState with isGameOver := true,
                   barrierBlocks := bbA :: List.replicate 23 bbB }

/-- **C8 (counterexample).**  At a game-over state holding exactly 24
barriers, a forced `spawnFloatingBlock` is a complete no-op (the
`isGameOver` early return): the oldest barrier is *not* removed and no
candidate is added, contradicting the claimed forced-at-cap behaviour. -/
theorem claim_C8_counterexample :
    cappedOverState.barrierBlocks.length = MAX_FLOATING_BLOCKS ∧
    cappedOverState.isGameOver = true ∧
    spawnFloatingBlock cfg0 true cappedOverState = cappedOverState ∧
    cappedOverState.barrierBlocks.head? = some bbA ∧
    cappedOverState.barrierBlocks.tail.head? = some bbB ∧
    bbA ≠ bbB :=
  ⟨rfl, rfl, rfl, rfl, rfl,
    fun h => absurd (congrArg BarrierBlock.strength h) (by decide)⟩

/-- **C8 (amended).**  Starting from any state with at most
`MAX_FLOATING_BLOCKS = 24` barriers, every `spawnFloatingBlock` call
preserves the bound; when the session is not game-over, an unforced call
at the cap adds nothing, and a forced call at the cap removes the oldest
barrier (the front of the collection, FIFO) before appending the new
candidate; when the session is game-over the call is a no-op (which also
preserves the bound). -/
theorem claim_C8_amended (cfg : Cfg) (force : Bool) (g : GameState)
    (h : g.barrierBlocks.length ≤ MAX_FLOATING_BLOCKS) :
    (spawnFloatingBlock cfg force g).barrierBlocks.length ≤ MAX_FLOATING_BLOCKS ∧
    (force = false → MAX_FLOATING_BLOCKS ≤ g.barrierBlocks.length →
      (spawnFloatingBlock cfg force g).barrierBlocks = g.barrierBlocks) ∧
    (force = true → g.barrierBlocks.length = MAX_FLOATING_BLOCKS →
      g.isGameOver = false →
      ∃ c, (spawnFloatingBlock cfg force g).barrierBlocks =
        g.barrierBlocks.tail ++ [c]) ∧
    (g.isGameOver = true → spawnFloatingBlock cfg force g = g) := by
  by_cases hgo : g.isGameOver = true
  · have he : spawnFloatingBlock cfg force g = g := by
      simp [spawnFloatingBlock, hgo]
    rw [he]
    exact ⟨h, fun _ _ => rfl, fun _ _ hc => absurd hgo (by rw [hc]; decide),
      fun _ => rfl⟩
  · have hgo' : g.isGameOver = false := by
      cases hv : g.isGameOver
      · rfl
      · exact absurd hv hgo
    cases force with
    | false =>
      by_cases hcap : MAX_FLOATING_BLOCKS ≤ g.barrierBlocks.length
      · have hb : (spawnFloatingBlock cfg false g).barrierBlocks = g.barrierBlocks := by
          simp [spawnFloatingBlock, hgo', hcap]
        rw [hb]
        exact ⟨h, fun _ _ => rfl, fun hc => absurd hc (by decide), fun hc => absurd hc hgo⟩
      · have hb : (spawnFloatingBlock cfg false g).barrierBlocks =
            g.barrierBlocks ++
              [(pickCandidate cfg g.turn g.barrierBlocks 18
                (createCandidate cfg g.turn g.rngState).1
                (createCandidate cfg g.turn g.rngState).2).1] := by
          simp [spawnFloatingBlock, hgo', hcap]
        rw [hb]
        refine ⟨?_, fun _ hc => absurd hc hcap, fun hc => absurd hc (by decide),
          fun hc => absurd hc hgo⟩
        rw [List.length_append]
        simp only [List.length_singleton]
        omega
    | true =>
      by_cases hcap : MAX_FLOATING_BLOCKS ≤ g.barrierBlocks.length
      · have hb : (spawnFloatingBlock cfg true g).barrierBlocks =
            g.barrierBlocks.tail ++
              [(pickCandidate cfg g.turn g.barrierBlocks 18
                (createCandidate cfg g.turn g.rngState).1
                (createCandidate cfg g.turn g.rngState).2).1] := by
          simp [spawnFloatingBlock, hgo', hcap]
        rw [hb]
        refine ⟨?_, fun hc => absurd hc (by decide), fun _ _ _ => ⟨_, rfl⟩,
          fun hc => absurd hc hgo⟩
        rw [List.length_append, List.length_tail]
        simp only [List.length_singleton]
        unfold MAX_FLOATING_BLOCKS at *
        omega
      · have hb : (spawnFloatingBlock cfg true g).barrierBlocks =
            g.barrierBlocks ++
              [(pickCandidate cfg g.turn g.barrierBlocks 18
                (createCandidate cfg g.turn g.rngState).1
                (createCandidate cfg g.turn g.rngState).2).1] := by
          simp [spawnFloatingBlock, hgo', hcap]
        rw [hb]
        refine ⟨?_, fun hc => absurd hc (by decide),
          fun _ hc => absurd (le_of_eq hc.symm) hcap, fun hc => absurd hc hgo⟩
        rw [List.length_append]
        simp only [List.length_singleton]
        unfold MAX_FLOATING_BLOCKS at *
        omega

/-- **C8 (witness).**  The bound is preserved at a concrete non-game-over
state at the cap: an unforced call adds nothing. -/
theorem claim_C8_witness :
    (spawnFloatingBlock cfg0 false
        { idleState with barrierBlocks := List.replicate 24 bbB }).barrierBlocks.length ≤
      MAX_FLOATING_BLOCKS ∧
    (spawnFloatingBlock cfg0 false
        { idleState with barrierBlocks := List.replicate 24 bbB }).barrierBlocks =
      ({ idleState with barrierBlocks := List.replicate 24 bbB } : GameState).barrierBlocks := by
  have h := claim_C8_amended cfg0 false
    { idleState with barrierBlocks := List.replicate 24 bbB } (by decide)
  exact ⟨h.1, h.2.1 rfl (by decide)⟩

/-! ### C10: the landing position -/

/-- **C10.**  Within a launching turn the recorded landing position
(`activeBallChainLanding`) is set exactly when the first ball of the
chain comes to rest, to that ball's x-coordinate (the head of the newly
pushed `restingBalls` suffix), and once set it is never overwritten by
later updates; `finishTurn` then moves the launcher to exactly that
x-coordinate, and leaves it unchanged when no ball rested (landing still
null). -/
theorem claim_C10 (cfg : Cfg) (d : ℚ) (g h : GameState) :
    (∀ v, g.activeBallChainLanding = some v →
        (update cfg d g).activeBallChainLanding = some v) ∧
    (∃ ext, (preUpdate cfg d g).restingBalls = g.restingBalls ++ ext ∧
        (g.activeBallChainLanding = none →
          (preUpdate cfg d g).activeBallChainLanding =
            ext.head?.map (fun b => b.x))) ∧
    (∀ v, h.activeBallChainLanding = some v →
        (finishTurn h).baseBallPosition = v) ∧
    (h.activeBallChainLanding = none →
        (finishTurn h).baseBallPosition = h.baseBallPosition) := by
  refine ⟨fun v hv => update_landing_mono cfg d g v hv, ?_, ?_, ?_⟩
  · have hspec := (ballsPassGo_spec cfg d (spawnPhase cfg d g).balls []
      (spawnPhase cfg d g)).2.2
    obtain ⟨ext, hrb, hsome, hnone⟩ := hspec
    have hkeep := spawnPhase_keep cfg d g
    refine ⟨ext, ?_, ?_⟩
    · show (ballsPass cfg d (spawnPhase cfg d g)).restingBalls = _
      unfold ballsPass
      rw [hrb, hkeep.2.2.2.1]
    · intro hn
      show (ballsPass cfg d (spawnPhase cfg d g)).activeBallChainLanding = _
      unfold ballsPass
      exact hnone (by rw [hkeep.2.2.2.2.1]; exact hn)
  · intro v hv
    show h.activeBallChainLanding.getD h.baseBallPosition = v
    rw [hv]
    rfl
  · intro hn
    show h.activeBallChainLanding.getD h.baseBallPosition = h.baseBallPosition
    rw [hn]
    rfl

/-- **C10 (witness).**  With a recorded landing `x = 123`, one more
update keeps it, and `finishTurn` moves the launcher there; with no
recorded landing, the launcher stays at 350. -/
theorem claim_C10_witness :
    (update cfg0 1 { idleState with activeBallChainLanding := some 123 }).activeBallChainLanding = some 123 ∧
    (finishTurn { idleState with activeBallChainLanding := some 123 }).baseBallPosition = 123 ∧
    (finishTurn idleState).baseBallPosition = 350 := by
  have h1 := claim_C10 cfg0 1 { idleState with activeBallChainLanding := some 123 }
    { idleState with activeBallChainLanding := some 123 }
  have h2 := claim_C10 cfg0 1 idleState idleState
  exact ⟨h1.1 123 rfl, h1.2.2.1 123 rfl, h2.2.2.2 rfl⟩

/-! ### C7: turn sequencing -/

/-- The exact condition under which a tick spawns a ball: not game-over,
launching, pending balls remain, and the launch timer (after the `-=
delta`) has run out. -/
def spawnCond (d : ℚ) (g : GameState) : Prop :=
  g.isGameOver = false ∧ g.isLaunching = true ∧ 0 < g.pendingBalls ∧
    g.launchTimer - d ≤ 0

theorem preUpdate_sameTurn (cfg : Cfg) (d : ℚ) (g : GameState) :
    SameTurn (spawnPhase cfg d g) (preUpdate cfg d g) :=
  (ballsPassGo_spec cfg d (spawnPhase cfg d g).balls [] (spawnPhase cfg d g)).1

theorem preUpdate_balls_length (cfg : Cfg) (d : ℚ) (g : GameState) :
    (preUpdate cfg d g).balls.length = (spawnPhase cfg d g).balls.length := by
  have := (ballsPassGo_spec cfg d (spawnPhase cfg d g).balls [] (spawnPhase cfg d g)).2.1
  simpa using this

theorem preUpdate_turn_eq (cfg : Cfg) (d : ℚ) (g : GameState) :
    (preUpdate cfg d g).turn = g.turn := by
  rw [(preUpdate_sameTurn cfg d g).2.2.2.2.1, (spawnPhase_keep cfg d g).2.2.1]

theorem preUpdate_launching_eq (cfg : Cfg) (d : ℚ) (g : GameState) :
    (preUpdate cfg d g).isLaunching = g.isLaunching := by
  rw [(preUpdate_sameTurn cfg d g).2.2.1, (spawnPhase_keep cfg d g).1]

theorem update_spawn (cfg : Cfg) (d : ℚ) (g : GameState) (h : spawnCond d g) :
    (update cfg d g).pendingBalls = g.pendingBalls - 1 ∧
      (update cfg d g).launchTimer = 1/10 := by
  obtain ⟨hgo, hL, hp, ht⟩ := h
  have hsp := (spawnPhase_pending_balls cfg d g).1 hL hp ht
  unfold update
  rw [if_neg (by simp [hgo])]
  rw [(tryFinishTurn_keep _).1, (tryFinishTurn_keep _).2.1]
  rw [(preUpdate_sameTurn cfg d g).1, (preUpdate_sameTurn cfg d g).2.1]
  exact ⟨hsp.1, hsp.2.1⟩

theorem update_noSpawn_pos (cfg : Cfg) (d : ℚ) (g : GameState)
    (hgo : g.isGameOver = false) (hL : g.isLaunching = true)
    (hp : 0 < g.pendingBalls) (ht : ¬ g.launchTimer - d ≤ 0) :
    (update cfg d g).pendingBalls = g.pendingBalls ∧
      (update cfg d g).launchTimer = g.launchTimer - d ∧
      (update cfg d g).isLaunching = true := by
  have hsp := (spawnPhase_pending_balls cfg d g).2.1 hL (fun hc => ht hc.2)
  have hpre1 : (preUpdate cfg d g).pendingBalls = g.pendingBalls := by
    rw [(preUpdate_sameTurn cfg d g).1, hsp.1]
  have hpre2 : (preUpdate cfg d g).launchTimer = g.launchTimer - d := by
    rw [(preUpdate_sameTurn cfg d g).2.1, hsp.2.1]
  have hpre3 : (preUpdate cfg d g).isLaunching = true := by
    rw [preUpdate_launching_eq, hL]
  have hnof : ¬ ((preUpdate cfg d g).isLaunching = true ∧
      (preUpdate cfg d g).pendingBalls = 0 ∧
      (preUpdate cfg d g).balls.all (·.resting) = true) := by
    intro hc
    rw [hpre1] at hc
    omega
  unfold update
  rw [if_neg (by simp [hgo])]
  rw [(tryFinishTurn_cases _).1 hnof]
  exact ⟨hpre1, hpre2, hpre3⟩

theorem update_launching_false (cfg : Cfg) (d : ℚ) (g : GameState)
    (h : g.isLaunching = false) :
    (update cfg d g).isLaunching = false ∧
      (update cfg d g).pendingBalls = g.pendingBalls := by
  by_cases hgo : g.isGameOver = true
  · rw [update_gameOver_frozen cfg d g hgo]
    exact ⟨h, rfl⟩
  · have hpre3 : (preUpdate cfg d g).isLaunching = false := by
      rw [preUpdate_launching_eq, h]
    have hsp := (spawnPhase_pending_balls cfg d g).2.2 h
    have hpre1 : (preUpdate cfg d g).pendingBalls = g.pendingBalls := by
      rw [(preUpdate_sameTurn cfg d g).1, hsp]
    have hnof : ¬ ((preUpdate cfg d g).isLaunching = true ∧
        (preUpdate cfg d g).pendingBalls = 0 ∧
        (preUpdate cfg d g).balls.all (·.resting) = true) := by
      intro hc
      rw [hpre3] at hc
      exact absurd hc.1 (by decide)
    unfold update
    rw [if_neg (by simp [hgo])]
    rw [(tryFinishTurn_cases _).1 hnof]
    exact ⟨hpre3, hpre1⟩

theorem update_pending_le (cfg : Cfg) (d : ℚ) (g : GameState) :
    (update cfg d g).pendingBalls ≤ g.pendingBalls := by
  by_cases hgo : g.isGameOver = true
  · rw [update_gameOver_frozen cfg d g hgo]
  · by_cases hL : g.isLaunching = true
    · by_cases hp : 0 < g.pendingBalls
      · by_cases ht : g.launchTimer - d ≤ 0
        · have := (update_spawn cfg d g ⟨by simpa using hgo, hL, hp, ht⟩).1
          omega
        · rw [(update_noSpawn_pos cfg d g (by simpa using hgo) hL hp ht).1]
      · have hsp := (spawnPhase_pending_balls cfg d g).2.1 hL (fun hc => hp hc.1)
        have hpre1 : (preUpdate cfg d g).pendingBalls = g.pendingBalls := by
          rw [(preUpdate_sameTurn cfg d g).1, hsp.1]
        unfold update
        rw [if_neg (by simp [hgo])]
        rw [(tryFinishTurn_keep _).1, hpre1]
    · rw [(update_launching_false cfg d g (by simpa using hL)).2]

theorem update_spawn_iff (cfg : Cfg) (d : ℚ) (g : GameState) :
    (update cfg d g).pendingBalls < g.pendingBalls ↔ spawnCond d g := by
  constructor
  · intro hlt
    by_cases hgo : g.isGameOver = true
    · rw [update_gameOver_frozen cfg d g hgo] at hlt
      exact absurd hlt (by omega)
    · by_cases hL : g.isLaunching = true
      · by_cases hp : 0 < g.pendingBalls
        · by_cases ht : g.launchTimer - d ≤ 0
          · exact ⟨by simpa using hgo, hL, hp, ht⟩
          · rw [(update_noSpawn_pos cfg d g (by simpa using hgo) hL hp ht).1] at hlt
            exact absurd hlt (by omega)
        · exact absurd hlt (by omega)
      · rw [(update_launching_false cfg d g (by simpa using hL)).2] at hlt
        exact absurd hlt (by omega)
  · intro hc
    have h1 := (update_spawn cfg d g hc).1
    have h2 := hc.2.2.1
    omega

theorem update_turn_fired (cfg : Cfg) (d : ℚ) (g : GameState)
    (h : (update cfg d g).turn ≠ g.turn) :
    (preUpdate cfg d g).isLaunching = true ∧
      (preUpdate cfg d g).pendingBalls = 0 ∧
      (preUpdate cfg d g).balls.all (·.resting) = true ∧
      update cfg d g = finishTurn (preUpdate cfg d g) := by
  by_cases hgo : g.isGameOver = true
  · rw [update_gameOver_frozen cfg d g hgo] at h
    exact absurd rfl h
  · by_cases hfire : (preUpdate cfg d g).isLaunching = true ∧
        (preUpdate cfg d g).pendingBalls = 0 ∧
        (preUpdate cfg d g).balls.all (·.resting) = true
    · have he : update cfg d g = finishTurn (preUpdate cfg d g) := by
        unfold update
        rw [if_neg (by simp [hgo])]
        exact (tryFinishTurn_cases _).2 hfire
      exact ⟨hfire.1, hfire.2.1, hfire.2.2, he⟩
    · exfalso
      apply h
      unfold update
      rw [if_neg (by simp [hgo])]
      rw [(tryFinishTurn_cases _).1 hfire]
      exact preUpdate_turn_eq cfg d g

theorem trace_cons (cfg : Cfg) (g : GameState) (d : ℚ) (ds : List ℚ) :
    trace cfg g (d :: ds) = trace cfg (update cfg d g) ds := rfl

theorem trace_pending_le (cfg : Cfg) :
    ∀ (ds : List ℚ) (g : GameState),
      (trace cfg g ds).pendingBalls ≤ g.pendingBalls := by
  intro ds
  induction ds with
  | nil => intro g; exact Nat.le_refl _
  | cons d ds ih =>
    intro g
    exact le_trans (ih (update cfg d g)) (update_pending_le cfg d g)

theorem trace_launching_false (cfg : Cfg) :
    ∀ (ds : List ℚ) (g : GameState), g.isLaunching = false →
      (trace cfg g ds).isLaunching = false := by
  intro ds
  induction ds with
  | nil => intro g h; exact h
  | cons d ds ih =>
    intro g h
    exact ih (update cfg d g) (update_launching_false cfg d g h).1

theorem trace_gameOver_eq (cfg : Cfg) :
    ∀ (ds : List ℚ) (g : GameState),
      (trace cfg g ds).isGameOver = g.isGameOver := by
  intro ds
  induction ds with
  | nil => intro g; rfl
  | cons d ds ih =>
    intro g
    rw [trace_cons, ih, update_gameOver_eq]

theorem noSpawn_segment (cfg : Cfg) :
    ∀ (ds : List ℚ) (g : GameState), g.isGameOver = false → g.isLaunching = true →
      0 < (trace cfg g ds).pendingBalls →
      (trace cfg g ds).pendingBalls = g.pendingBalls →
      (trace cfg g ds).launchTimer = g.launchTimer - ds.sum ∧
        (trace cfg g ds).isLaunching = true := by
  intro ds
  induction ds with
  | nil =>
    intro g hgo hL _ _
    exact ⟨by simp [trace], hL⟩
  | cons d ds ih =>
    intro g hgo hL hpos heq
    rw [trace_cons] at hpos heq ⊢
    have h1 : (trace cfg (update cfg d g) ds).pendingBalls ≤
        (update cfg d g).pendingBalls := trace_pending_le cfg ds _
    have h2 : (update cfg d g).pendingBalls ≤ g.pendingBalls := update_pending_le cfg d g
    have heq1 : (update cfg d g).pendingBalls = g.pendingBalls := by omega
    have hnotlt : ¬ (update cfg d g).pendingBalls < g.pendingBalls := by omega
    have hnc : ¬ spawnCond d g := fun hc => hnotlt ((update_spawn_iff cfg d g).mpr hc)
    have hp : 0 < g.pendingBalls := by omega
    have ht : ¬ g.launchTimer - d ≤ 0 := by
      intro hts
      exact hnc ⟨hgo, hL, hp, hts⟩
    have hns := update_noSpawn_pos cfg d g hgo hL hp ht
    have hrec := ih (update cfg d g)
      (by rw [update_gameOver_eq, hgo]) hns.2.2 hpos (by omega)
    refine ⟨?_, hrec.2⟩
    rw [hrec.1, hns.2.1]
    rw [List.sum_cons]
    ring

theorem preUpdate_inv (cfg : Cfg) (d : ℚ) (g : GameState) (n : Nat)
    (hInv : g.isLaunching = true → g.balls.length + g.pendingBalls = n)
    (hL : (preUpdate cfg d g).isLaunching = true) :
    (preUpdate cfg d g).balls.length + (preUpdate cfg d g).pendingBalls = n := by
  have hgl : g.isLaunching = true := by
    rw [← preUpdate_launching_eq cfg d g]
    exact hL
  have hsum := hInv hgl
  have hlen := preUpdate_balls_length cfg d g
  have hpend : (preUpdate cfg d g).pendingBalls = (spawnPhase cfg d g).pendingBalls :=
    (preUpdate_sameTurn cfg d g).1
  by_cases hc : 0 < g.pendingBalls ∧ g.launchTimer - d ≤ 0
  · have hsp := (spawnPhase_pending_balls cfg d g).1 hgl hc.1 hc.2
    rw [hlen, hpend, hsp.1, hsp.2.2]
    have := hc.1
    omega
  · have hsp := (spawnPhase_pending_balls cfg d g).2.1 hgl hc
    rw [hlen, hpend, hsp.1, hsp.2.2]
    omega

theorem update_inv (cfg : Cfg) (d : ℚ) (g : GameState) (n : Nat)
    (hInv : g.isLaunching = true → g.balls.length + g.pendingBalls = n)
    (hL : (update cfg d g).isLaunching = true) :
    (update cfg d g).balls.length + (update cfg d g).pendingBalls = n := by
  by_cases hgo : g.isGameOver = true
  · rw [update_gameOver_frozen cfg d g hgo] at hL ⊢
    exact hInv hL
  · by_cases hfire : (preUpdate cfg d g).isLaunching = true ∧
        (preUpdate cfg d g).pendingBalls = 0 ∧
        (preUpdate cfg d g).balls.all (·.resting) = true
    · exfalso
      have he : update cfg d g = finishTurn (preUpdate cfg d g) := by
        unfold update
        rw [if_neg (by simp [hgo])]
        exact (tryFinishTurn_cases _).2 hfire
      rw [he, (finishTurn_fields _).1] at hL
      exact absurd hL (by decide)
    · have he : update cfg d g = preUpdate cfg d g := by
        unfold update
        rw [if_neg (by simp [hgo])]
        exact (tryFinishTurn_cases _).1 hfire
      rw [he] at hL ⊢
      exact preUpdate_inv cfg d g n hInv hL

theorem trace_inv (cfg : Cfg) (n : Nat) :
    ∀ (ds : List ℚ) (g : GameState),
      (g.isLaunching = true → g.balls.length + g.pendingBalls = n) →
      ((trace cfg g ds).isLaunching = true →
        (trace cfg g ds).balls.length + (trace cfg g ds).pendingBalls = n) := by
  intro ds
  induction ds with
  | nil => intro g h; exact h
  | cons d ds ih =>
    intro g h
    exact ih (update cfg d g) (update_inv cfg d g n h)

/-- **C7.** After `launchTurn` with chain count `n = ballChain`:
(1) whenever the session is still launching, the spawned balls plus the
pending counter always total exactly `n` (so at most `n` balls are ever
spawned, and the pending counter never exceeds `n`);
(2) the turn number advances in a tick only when, at the finish-turn
check of that tick, the pending count is zero, every ball in the
collection is resting, and exactly `n` balls are in the collection;
(3) any two consecutive spawn ticks (ticks that decrement the pending
counter) are separated by at least `0.1` time-units of accumulated
simulated time. -/
theorem claim_C7 (cfg : Cfg) (angle : ℚ) (g : GameState) (hballs : g.balls = []) :
    (∀ ds : List ℚ,
      ((trace cfg (launchTurn angle g) ds).isLaunching = true →
        (trace cfg (launchTurn angle g) ds).balls.length +
          (trace cfg (launchTurn angle g) ds).pendingBalls = g.ballChain) ∧
      (trace cfg (launchTurn angle g) ds).pendingBalls ≤ g.ballChain) ∧
    (∀ (ds : List ℚ) (d : ℚ),
      (update cfg d (trace cfg (launchTurn angle g) ds)).turn ≠
          (trace cfg (launchTurn angle g) ds).turn →
      (preUpdate cfg d (trace cfg (launchTurn angle g) ds)).pendingBalls = 0 ∧
      (∀ b ∈ (preUpdate cfg d (trace cfg (launchTurn angle g) ds)).balls,
        b.resting = true) ∧
      (preUpdate cfg d (trace cfg (launchTurn angle g) ds)).balls.length =
        g.ballChain) ∧
    (∀ (ds₁ : List ℚ) (d : ℚ) (ds₂ : List ℚ) (e : ℚ),
      (update cfg d (trace cfg (launchTurn angle g) ds₁)).pendingBalls <
          (trace cfg (launchTurn angle g) ds₁).pendingBalls →
      (trace cfg (update cfg d (trace cfg (launchTurn angle g) ds₁))
          ds₂).pendingBalls =
          (update cfg d (trace cfg (launchTurn angle g) ds₁)).pendingBalls →
      (update cfg e (trace cfg (update cfg d (trace cfg (launchTurn angle g) ds₁))
          ds₂)).pendingBalls <
          (trace cfg (update cfg d (trace cfg (launchTurn angle g) ds₁))
            ds₂).pendingBalls →
      1/10 ≤ ds₂.sum + e) := by
  have hInv0 : (launchTurn angle g).isLaunching = true →
      (launchTurn angle g).balls.length + (launchTurn angle g).pendingBalls =
        g.ballChain := by
    intro _
    show g.balls.length + g.ballChain = g.ballChain
    rw [hballs]
    simp
  have hpend0 : (launchTurn angle g).pendingBalls = g.ballChain := rfl
  refine ⟨?_, ?_, ?_⟩
  · intro ds
    refine ⟨trace_inv cfg g.ballChain ds (launchTurn angle g) hInv0, ?_⟩
    calc (trace cfg (launchTurn angle g) ds).pendingBalls
        ≤ (launchTurn angle g).pendingBalls := trace_pending_le cfg ds _
      _ = g.ballChain := hpend0
  · intro ds d hne
    have hf := update_turn_fired cfg d (trace cfg (launchTurn angle g) ds) hne
    have hInvT := trace_inv cfg g.ballChain ds (launchTurn angle g) hInv0
    have hsum := preUpdate_inv cfg d (trace cfg (launchTurn angle g) ds)
      g.ballChain hInvT hf.1
    refine ⟨hf.2.1, ?_, ?_⟩
    · intro b hb
      exact List.all_eq_true.mp hf.2.2.1 b hb
    · have := hf.2.1
      omega
  · intro ds₁ d ds₂ e hA hseg hB
    have hcondA : spawnCond d (trace cfg (launchTurn angle g) ds₁) :=
      (update_spawn_iff cfg d _).mp hA
    have hcondB : spawnCond e
        (trace cfg (update cfg d (trace cfg (launchTurn angle g) ds₁)) ds₂) :=
      (update_spawn_iff cfg e _).mp hB
    have hL1 : (update cfg d (trace cfg (launchTurn angle g) ds₁)).isLaunching = true := by
      cases hv : (update cfg d (trace cfg (launchTurn angle g) ds₁)).isLaunching with
      | true => rfl
      | false =>
        have hfalse := trace_launching_false cfg ds₂ _ hv
        have hLB := hcondB.2.1
        rw [hfalse] at hLB
        exact absurd hLB (by decide)
    have hgo1 : (update cfg d (trace cfg (launchTurn angle g) ds₁)).isGameOver = false := by
      rw [update_gameOver_eq]
      exact hcondA.1
    have htimer1 := (update_spawn cfg d _ hcondA).2
    have hns := noSpawn_segment cfg ds₂
      (update cfg d (trace cfg (launchTurn angle g) ds₁)) hgo1 hL1
      hcondB.2.2.1 hseg
    have hts := hcondB.2.2.2
    rw [hns.1, htimer1] at hts
    linarith

/-- **C7 (witness).**  Immediately after launching with chain count 1,
no ball has spawned yet and the invariant holds: `0 + 1 = 1`. -/
theorem claim_C7_witness :
    (trace cfg0 (launchTurn 1 idleState) []).balls.length +
      (trace cfg0 (launchTurn 1 idleState) []).pendingBalls = idleState.ballChain :=
  ((claim_C7 cfg0 1 idleState rfl).1 []).1 rfl

end BallzGame
